import Mathlib

/-!
# The bounded-freedom scheduler (`scheduler_TP_Freedom.c`)

A shallow embedding of `src/deps/uv/src/scheduler_TP_Freedom.c` and theorems about it.

Conventions of the embedding.

* A C `assert` that fails aborts the process: every entry point returns an `Option`, and
  `none` is the abort. `some` carries the state and the payload as the call leaves them.
* The process-wide `tpFreedom_implDetails` is passed explicitly.
* C `int` and `long` values are `Int`. The only arithmetic the file performs on them
  (a division, a remainder, an increment bounded by `nitems`) cannot leave the range of `int`
  on operands that are in it. C `/` and `%` are `Int.tdiv` and `Int.tmod`.
* The outcomes of the external nondeterministic calls of one entry (`clock_gettime`,
  `rand_int`, `random_shuffle`) are collected in `Env`; theorems quantify over them.
* `mylog` only writes diagnostics and is left out.
-/

namespace TPFreedom

/-! ## Data model -/

/-- The C `struct timespec`: seconds and nanoseconds. -/
structure timespec where
  tv_sec : Int
  tv_nsec : Int
  deriving DecidableEq, Repr

/-- The record `struct uv__epoll_event` of `unix/linux-syscalls.h`: an event mask and the
user data. The scheduler moves these records around and never looks inside. -/
structure uv__epoll_event where
  events : Nat
  data : Nat
  deriving DecidableEq, Repr

/-- The configuration `scheduler_tp_freedom_args_t` (declared in `scheduler_TP_Freedom.h`,
which is not part of the sources at hand). The fields are the ones the C file reads. The two
durations are printed with `%llu` and are unsigned microsecond counts. -/
structure scheduler_tp_freedom_args_t where
  tp_degrees_of_freedom : Int
  tp_max_delay_us : Nat
  tp_epoll_threshold : Nat
  iopoll_degrees_of_freedom : Int
  iopoll_defer_perc : Int
  deriving DecidableEq, Repr

/-- The static `tpFreedom_implDetails`. -/
structure implDetails_t where
  magic : Int
  mode : Int
  args : scheduler_tp_freedom_args_t
  looper_in_epoll : Int
  looper_epoll_start_time : timespec
  deriving DecidableEq, Repr

/-- The value of `SCHEDULER_TP_FREEDOM_MAGIC`. -/
def SCHEDULER_TP_FREEDOM_MAGIC : Int := 81929393

/-- A static object of C starts out with every byte zero: the state before
`scheduler_tp_freedom_init`. -/
def tpFreedom_implDetails_zero : implDetails_t :=
  { magic := 0, mode := 0,
    args := { tp_degrees_of_freedom := 0, tp_max_delay_us := 0, tp_epoll_threshold := 0,
              iopoll_degrees_of_freedom := 0, iopoll_defer_perc := 0 },
    looper_in_epoll := 0, looper_epoll_start_time := { tv_sec := 0, tv_nsec := 0 } }

/-- The decision points the C file names, and one constructor for every other point of the
host's enumeration (the strategy does nothing there). -/
inductive schedule_point_t where
  | SCHEDULE_POINT_TP_WANTS_WORK
  | SCHEDULE_POINT_TP_GETTING_WORK
  | SCHEDULE_POINT_LOOPER_GETTING_DONE
  | SCHEDULE_POINT_LOOPER_BEFORE_EPOLL
  | SCHEDULE_POINT_LOOPER_AFTER_EPOLL
  | SCHEDULE_POINT_LOOPER_IOPOLL_BEFORE_HANDLING_EVENTS
  | SCHEDULE_POINT_OTHER
  deriving DecidableEq, Repr

open schedule_point_t

/-- Payload of `SCHEDULE_POINT_TP_WANTS_WORK`. `wq` is the `QUEUE *` (`none` is `NULL`; the
queue is the list of its items). -/
structure spd_wants_work_t where
  wq : Option (List Nat)
  start_time : timespec
  should_get_work : Int
  deriving DecidableEq, Repr

/-- Payload of `SCHEDULE_POINT_TP_GETTING_WORK`. -/
structure spd_getting_work_t where
  wq : Option (List Nat)
  index : Int
  deriving DecidableEq, Repr

/-- Payload of `SCHEDULE_POINT_LOOPER_GETTING_DONE`. -/
structure spd_getting_done_t where
  wq : Option (List Nat)
  index : Int
  deriving DecidableEq, Repr

/-- Payload of `SCHEDULE_POINT_LOOPER_IOPOLL_BEFORE_HANDLING_EVENTS`: the event array, the
number of events in it, and the parallel output array. -/
structure spd_iopoll_before_handling_events_t where
  nevents : Int
  events : List uv__epoll_event
  should_handle_event : List Int
  deriving DecidableEq, Repr

/-- What the `void *pointDetails` points to. -/
inductive pointDetails_t where
  | wants_work (d : spd_wants_work_t)
  | getting_work (d : spd_getting_work_t)
  | getting_done (d : spd_getting_done_t)
  | before_epoll
  | after_epoll
  | iopoll_before_handling_events (d : spd_iopoll_before_handling_events_t)
  | other_details
  deriving DecidableEq, Repr

/-- The functions a slot of the capability table can be bound to. -/
inductive entry_point_t where
  | scheduler_tp_freedom_register_lcbn
  | scheduler_tp_freedom_next_lcbn_type
  | scheduler_tp_freedom_thread_yield
  | scheduler_tp_freedom_emit
  | scheduler_tp_freedom_lcbns_remaining
  | scheduler_tp_freedom_schedule_has_diverged
  deriving DecidableEq, Repr

/-- The capability table `schedulerImpl_t`; an unbound slot is `none`. -/
structure schedulerImpl_t where
  register_lcbn : Option entry_point_t
  next_lcbn_type : Option entry_point_t
  thread_yield : Option entry_point_t
  emit : Option entry_point_t
  lcbns_remaining : Option entry_point_t
  schedule_has_diverged : Option entry_point_t
  deriving DecidableEq, Repr

/-- Outcomes of the external calls made during one entry into the scheduler:
the result of `clock_gettime` (`none` when it fails), the value returned by the `k`-th call
of `rand_int` given its argument, and the buffer left by the `k`-th call of
`random_shuffle` given the buffer it received. -/
structure Env where
  clock_gettime : Option timespec
  rand_int : Nat → Int → Int
  random_shuffle : Nat → List uv__epoll_event → List uv__epoll_event

/-! ## External helpers -/

/-- Modelled from the spec: `timespec_cmp` of `timespec_funcs.h` is missing from the sources;
it is the duration comparison of the timing utilities, `1` when `a` is after `b`, `-1` when
it is before, `0` when they are equal. -/
def timespec_cmp (a b : timespec) : Int :=
  if a.tv_sec < b.tv_sec then -1
  else if b.tv_sec < a.tv_sec then 1
  else if a.tv_nsec < b.tv_nsec then -1
  else if b.tv_nsec < a.tv_nsec then 1
  else 0

/-- Modelled from the spec: `timespec_sub` of `timespec_funcs.h` is missing from the sources;
it is the duration subtraction of the timing utilities, `stop - start`, borrowing a second
when the nanoseconds would go negative. -/
def timespec_sub (stop start : timespec) : timespec :=
  if stop.tv_nsec < start.tv_nsec then
    { tv_sec := stop.tv_sec - start.tv_sec - 1,
      tv_nsec := 1000000000 + stop.tv_nsec - start.tv_nsec }
  else
    { tv_sec := stop.tv_sec - start.tv_sec, tv_nsec := stop.tv_nsec - start.tv_nsec }

/-- Modelled from the spec: `timespec_us` of `timespec_funcs.h` is missing from the sources;
it is the microsecond conversion of the timing utilities. -/
def timespec_us (ts : timespec) : Int :=
  ts.tv_sec * 1000000 + Int.tdiv ts.tv_nsec 1000

/-- Modelled from the spec: `schedule_point_looks_valid` of `scheduler.h` is missing from the
sources; it says whether the payload is the variant of the point. -/
def schedule_point_looks_valid : schedule_point_t → pointDetails_t → Bool
  | SCHEDULE_POINT_TP_WANTS_WORK, .wants_work _ => true
  | SCHEDULE_POINT_TP_GETTING_WORK, .getting_work _ => true
  | SCHEDULE_POINT_LOOPER_GETTING_DONE, .getting_done _ => true
  | SCHEDULE_POINT_LOOPER_BEFORE_EPOLL, .before_epoll => true
  | SCHEDULE_POINT_LOOPER_AFTER_EPOLL, .after_epoll => true
  | SCHEDULE_POINT_LOOPER_IOPOLL_BEFORE_HANDLING_EVENTS, .iopoll_before_handling_events _ => true
  | SCHEDULE_POINT_OTHER, .other_details => true
  | _, _ => false

/-- The macro `MIN`. -/
def MIN (x y : Int) : Int := if x < y then x else y

/-! ## Private API -/

/-- The function `scheduler_tp_freedom__looks_valid`. -/
def scheduler_tp_freedom__looks_valid (st : implDetails_t) : Bool :=
  decide (st.magic = SCHEDULER_TP_FREEDOM_MAGIC)

/-- The function `scheduler_tp_freedom__queue_len`: aborts on `NULL`; `QUEUE_LEN` counts the
items. -/
def scheduler_tp_freedom__queue_len (q : Option (List Nat)) : Option Int :=
  match q with
  | none => none
  | some items =>
    let queue_len : Int := items.length
    if 0 ≤ queue_len then some queue_len else none

/-- The values `(chunk_len, n_chunks, last_chunk_len)` that
`scheduler_tp_freedom__shuffle_events` computes before its loop, for `1 < nitems`;
`none` when `assert(0 < chunk_len)` fails. -/
def shuffle_chunking (degrees_of_freedom nitems : Int) : Option (Int × Int × Int) :=
  let chunk_len := if degrees_of_freedom = -1 then nitems else degrees_of_freedom
  if 0 < chunk_len then
    let n_chunks := Int.tdiv nitems chunk_len
    let n_chunks := if Int.tmod nitems chunk_len ≠ 0 then n_chunks + 1 else n_chunks
    let last_chunk_len :=
      if Int.tmod nitems chunk_len = 0 then chunk_len else Int.tmod nitems chunk_len
    some (chunk_len, n_chunks, last_chunk_len)
  else none

/-- The loop `for (i = 0; i < n_chunks; i++)` of `scheduler_tp_freedom__shuffle_events` from
iteration `i` on; `todo` is the number of iterations left, `n_chunks - i`. `eventsP` is the
offset of the cursor into `events`, counted in items; `random_shuffle` receives the
`this_chunk_len` items at the cursor and its result takes their place. -/
def shuffle_loop (random_shuffle : Nat → List uv__epoll_event → List uv__epoll_event)
    (chunk_len n_chunks last_chunk_len : Int) :
    (todo : Nat) → (i : Nat) → (eventsP : Nat) → List uv__epoll_event → List uv__epoll_event
  | 0, _, _, events => events
  | todo + 1, i, eventsP, events =>
    let this_chunk_len := if (i : Int) < n_chunks - 1 then chunk_len else last_chunk_len
    let events1 :=
      events.take eventsP
        ++ random_shuffle i ((events.drop eventsP).take this_chunk_len.toNat)
        ++ events.drop (eventsP + this_chunk_len.toNat)
    shuffle_loop random_shuffle chunk_len n_chunks last_chunk_len todo (i + 1)
      (eventsP + this_chunk_len.toNat) events1

/-- The function `scheduler_tp_freedom__shuffle_events`. The buffer is the list of its
items, so `item_size` is the size of one list element and the cursor advances by
`this_chunk_len` items. -/
def scheduler_tp_freedom__shuffle_events
    (random_shuffle : Nat → List uv__epoll_event → List uv__epoll_event)
    (degrees_of_freedom : Int) (events : List uv__epoll_event) (nitems : Int) :
    Option (List uv__epoll_event) :=
  if nitems ≤ 1 then some events
  else
    match shuffle_chunking degrees_of_freedom nitems with
    | none => none
    | some (chunk_len, n_chunks, last_chunk_len) =>
      some (shuffle_loop random_shuffle chunk_len n_chunks last_chunk_len n_chunks.toNat 0 0 events)

/-- The deferral loop `for (i = 0; i < nevents; i++)` of
`SCHEDULE_POINT_LOOPER_IOPOLL_BEFORE_HANDLING_EVENTS` from iteration `i` on; `todo` is the
number of iterations left, `nevents - i`. The body is
`should_handle_event[i] = !(rand_int(100) < iopoll_defer_perc)`. -/
def defer_loop (rand_int : Nat → Int → Int) (iopoll_defer_perc : Int) :
    (todo : Nat) → (i : Nat) → (should_handle_event : List Int) → List Int
  | 0, _, should_handle_event => should_handle_event
  | todo + 1, i, should_handle_event =>
    let should_defer : Int := if rand_int i 100 < iopoll_defer_perc then 1 else 0
    defer_loop rand_int iopoll_defer_perc todo (i + 1)
      (should_handle_event.set i (if should_defer = 0 then 1 else 0))

/-! ## Public API -/

/-- The function `scheduler_tp_freedom_init`. `tpSize` is what `getenv("UV_THREADPOOL_SIZE")`
returns, `atoi` is the C library function. The result is the new state and the populated
table. -/
def scheduler_tp_freedom_init (tpSize : Option String) (atoi : String → Int) (mode : Int)
    (args : Option scheduler_tp_freedom_args_t) (schedulerImpl : Option schedulerImpl_t) :
    Option (implDetails_t × schedulerImpl_t) :=
  match args, schedulerImpl with
  | some a, some _ =>
    match tpSize with
    | none => none
    | some s =>
      if atoi s = 1 then
        let impl : schedulerImpl_t :=
          { register_lcbn := some .scheduler_tp_freedom_register_lcbn,
            next_lcbn_type := some .scheduler_tp_freedom_next_lcbn_type,
            thread_yield := some .scheduler_tp_freedom_thread_yield,
            emit := some .scheduler_tp_freedom_emit,
            lcbns_remaining := some .scheduler_tp_freedom_lcbns_remaining,
            schedule_has_diverged := some .scheduler_tp_freedom_schedule_has_diverged }
        let st : implDetails_t :=
          { tpFreedom_implDetails_zero with
            magic := SCHEDULER_TP_FREEDOM_MAGIC, mode := mode, args := a }
        if st.args.tp_degrees_of_freedom = -1 ∨ 1 ≤ st.args.tp_degrees_of_freedom then
          if 0 ≤ st.args.iopoll_defer_perc ∧ st.args.iopoll_defer_perc ≤ 100 then
            some (st, impl)
          else none
        else none
      else none
  | _, _ => none

/-- The `SCHEDULE_POINT_TP_WANTS_WORK` branch of `scheduler_tp_freedom_thread_yield`. The
path on which no rule fires only logs: the payload is handed back as it came. -/
def thread_yield_wants_work (env : Env) (st : implDetails_t) (spd_wants_work : spd_wants_work_t) :
    Option spd_wants_work_t :=
  match scheduler_tp_freedom__queue_len spd_wants_work.wq with
  | none => none
  | some queue_len =>
    match env.clock_gettime with
    | none => none
    | some now =>
      let wait_diff_us : Int :=
        if timespec_cmp now spd_wants_work.start_time = 1 then
          timespec_us (timespec_sub now spd_wants_work.start_time)
        else 0
      let looper_epoll_diff_us : Int :=
        if st.looper_in_epoll ≠ 0 then
          if timespec_cmp now st.looper_epoll_start_time = 1 then
            timespec_us (timespec_sub now st.looper_epoll_start_time)
          else 0
        else 0
      if 0 < st.args.tp_degrees_of_freedom ∧ st.args.tp_degrees_of_freedom ≤ queue_len then
        some { spd_wants_work with should_get_work := 1 }
      else if (st.args.tp_max_delay_us : Int) ≤ wait_diff_us then
        some { spd_wants_work with should_get_work := 1 }
      else if st.looper_in_epoll ≠ 0 ∧ (st.args.tp_epoll_threshold : Int) ≤ looper_epoll_diff_us then
        some { spd_wants_work with should_get_work := 1 }
      else
        some spd_wants_work

/-- The index choice shared by `SCHEDULE_POINT_TP_GETTING_WORK` and
`SCHEDULE_POINT_LOOPER_GETTING_DONE`: the value stored through `indexP`. -/
def thread_yield_choose_index (env : Env) (st : implDetails_t) (wq : Option (List Nat)) :
    Option Int :=
  let deg_freedom := st.args.tp_degrees_of_freedom
  match wq with
  | none => none
  | some _ =>
    match scheduler_tp_freedom__queue_len wq with
    | none => none
    | some wq_len =>
      if 0 < wq_len then
        let deg_freedom := if deg_freedom = -1 then wq_len else deg_freedom
        let wq_ix := env.rand_int 0 (MIN wq_len deg_freedom)
        some wq_ix
      else none

/-- The function `scheduler_tp_freedom_thread_yield`. -/
def scheduler_tp_freedom_thread_yield (env : Env) (st : implDetails_t)
    (point : schedule_point_t) (pointDetails : pointDetails_t) :
    Option (implDetails_t × pointDetails_t) :=
  if ¬ scheduler_tp_freedom__looks_valid st then none
  else if ¬ schedule_point_looks_valid point pointDetails then none
  else
    match point, pointDetails with
    | SCHEDULE_POINT_TP_WANTS_WORK, .wants_work spd_wants_work =>
      match thread_yield_wants_work env st spd_wants_work with
      | none => none
      | some d => some (st, .wants_work d)
    | SCHEDULE_POINT_TP_GETTING_WORK, .getting_work d =>
      match thread_yield_choose_index env st d.wq with
      | none => none
      | some wq_ix => some (st, .getting_work { d with index := wq_ix })
    | SCHEDULE_POINT_LOOPER_GETTING_DONE, .getting_done d =>
      match thread_yield_choose_index env st d.wq with
      | none => none
      | some wq_ix => some (st, .getting_done { d with index := wq_ix })
    | SCHEDULE_POINT_LOOPER_BEFORE_EPOLL, pd =>
      if st.looper_in_epoll ≠ 0 then none
      else
        match env.clock_gettime with
        | none => none
        | some t => some ({ st with looper_in_epoll := 1, looper_epoll_start_time := t }, pd)
    | SCHEDULE_POINT_LOOPER_AFTER_EPOLL, pd =>
      if st.looper_in_epoll ≠ 0 then some ({ st with looper_in_epoll := 0 }, pd)
      else none
    | SCHEDULE_POINT_LOOPER_IOPOLL_BEFORE_HANDLING_EVENTS, .iopoll_before_handling_events d =>
      if 0 < d.nevents then
        match scheduler_tp_freedom__shuffle_events env.random_shuffle
            st.args.iopoll_degrees_of_freedom d.events d.nevents with
        | none => none
        | some events1 =>
          some (st, .iopoll_before_handling_events
            { d with
              events := events1,
              should_handle_event :=
                defer_loop env.rand_int st.args.iopoll_defer_perc d.nevents.toNat 0
                  d.should_handle_event })
      else some (st, .iopoll_before_handling_events d)
    | _, pd => some (st, pd)

/-- The function `scheduler_tp_freedom_register_lcbn`. The callback record `lcbn_t` and
`lcbn_looks_valid` belong to the host; `lcbn` is `none` for `NULL` and otherwise carries the
answer of `lcbn_looks_valid`. -/
def scheduler_tp_freedom_register_lcbn (st : implDetails_t) (lcbn : Option Bool) :
    Option implDetails_t :=
  if scheduler_tp_freedom__looks_valid st then
    match lcbn with
    | none => none
    | some lcbn_looks_valid => if lcbn_looks_valid then some st else none
  else none

/-- The function `scheduler_tp_freedom_emit`: `unlink(output_file)` removes the path from the
set of existing files, whether or not it was there. -/
def scheduler_tp_freedom_emit (st : implDetails_t) (files : List String) (output_file : String) :
    Option (implDetails_t × List String) :=
  if scheduler_tp_freedom__looks_valid st then
    some (st, files.filter (fun f => f ≠ output_file))
  else none

/-- The function `scheduler_tp_freedom_lcbns_remaining`. -/
def scheduler_tp_freedom_lcbns_remaining (st : implDetails_t) : Option (implDetails_t × Int) :=
  if scheduler_tp_freedom__looks_valid st then some (st, -1) else none

/-- The function `scheduler_tp_freedom_schedule_has_diverged`. -/
def scheduler_tp_freedom_schedule_has_diverged (st : implDetails_t) :
    Option (implDetails_t × Int) :=
  if scheduler_tp_freedom__looks_valid st then some (st, -1) else none

/-- The function `scheduler_tp_freedom_next_lcbn_type`; `CALLBACK_TYPE_ANY` is the only value
of `enum callback_type` the file uses and stands as `()`. -/
def scheduler_tp_freedom_next_lcbn_type (st : implDetails_t) : Option (implDetails_t × Unit) :=
  if scheduler_tp_freedom__looks_valid st then some (st, ()) else none

/-! ## Specification-level notions used in the statements -/

/-- A `struct timespec` as the clock produces it: nanoseconds within one second. -/
def timespec_wf (t : timespec) : Prop := 0 ≤ t.tv_nsec ∧ t.tv_nsec < 1000000000

instance (t : timespec) : Decidable (timespec_wf t) := by
  unfold timespec_wf; infer_instance

/-- The instant of a `timespec` in nanoseconds. -/
def timespec_ns (t : timespec) : Int := t.tv_sec * 1000000000 + t.tv_nsec

/-- The time elapsed from `start` to `now` in whole microseconds (negative when `now` is
before `start`). -/
def elapsed_us (now start : timespec) : Int := (timespec_ns now - timespec_ns start) / 1000

/-- The configuration of the concrete scenario of the specification: two degrees of freedom,
a maximal delay of 1000 ms and an epoll threshold of 500 ms; the event side shuffles in
windows of three and defers nothing. -/
def scenario_args : scheduler_tp_freedom_args_t :=
  { tp_degrees_of_freedom := 2, tp_max_delay_us := 1000000, tp_epoll_threshold := 500000,
    iopoll_degrees_of_freedom := 3, iopoll_defer_perc := 0 }

/-- The state after initialising with `scenario_args`. -/
def scenario_state : implDetails_t :=
  { tpFreedom_implDetails_zero with magic := SCHEDULER_TP_FREEDOM_MAGIC, args := scenario_args }

/-- An environment whose clock reads `now`, whose draws return `r` and whose shuffle reverses
the buffer. -/
def scenario_env (now : timespec) (r : Int) : Env :=
  { clock_gettime := some now, rand_int := fun _ _ => r, random_shuffle := fun _ l => l.reverse }

/-- The table with every slot bound to this strategy's entry point. -/
def populated_schedulerImpl : schedulerImpl_t :=
  { register_lcbn := some .scheduler_tp_freedom_register_lcbn,
    next_lcbn_type := some .scheduler_tp_freedom_next_lcbn_type,
    thread_yield := some .scheduler_tp_freedom_thread_yield,
    emit := some .scheduler_tp_freedom_emit,
    lcbns_remaining := some .scheduler_tp_freedom_lcbns_remaining,
    schedule_has_diverged := some .scheduler_tp_freedom_schedule_has_diverged }

/-- The `k`-th window of length `c` of a buffer: the items at positions
`[k * c, min ((k + 1) * c, length))`. -/
def chunk {α : Type} (c k : Nat) (l : List α) : List α := (l.drop (k * c)).take c

/-- Seven distinguishable events, numbered by their `data` field. -/
def seven_events : List uv__epoll_event :=
  [⟨1, 0⟩, ⟨1, 1⟩, ⟨1, 2⟩, ⟨1, 3⟩, ⟨1, 4⟩, ⟨1, 5⟩, ⟨1, 6⟩]

/-- The value of `wait_diff_us` of the wants-work branch: the duration compared with
`tp_max_delay_us` by rule 2. -/
def wants_work_wait_diff_us (now start_time : timespec) : Int :=
  if timespec_cmp now start_time = 1 then timespec_us (timespec_sub now start_time) else 0

/-- The value of `looper_epoll_diff_us` of the wants-work branch: the duration compared with
`tp_epoll_threshold` by rule 3. -/
def wants_work_looper_epoll_diff_us (st : implDetails_t) (now : timespec) : Int :=
  if st.looper_in_epoll ≠ 0 then
    if timespec_cmp now st.looper_epoll_start_time = 1 then
      timespec_us (timespec_sub now st.looper_epoll_start_time)
    else 0
  else 0

/-- One call of `scheduler_tp_freedom_thread_yield` by the host: the point, the payload and
the outcomes of the external calls made during it. -/
structure yield_call where
  env : Env
  point : schedule_point_t
  pointDetails : pointDetails_t

/-- The state after a sequence of decision-point calls, each made on the state the previous
one left; `none` as soon as one of them aborts. -/
def run_yields (st : implDetails_t) : List yield_call → Option implDetails_t
  | [] => some st
  | c :: cs =>
    match scheduler_tp_freedom_thread_yield c.env st c.point c.pointDetails with
    | none => none
    | some (st1, _) => run_yields st1 cs

/-- The epoll-boundary calls of a sequence, in order: `true` for a before-epoll call and
`false` for an after-epoll call. -/
def epoll_marks : List yield_call → List Bool
  | [] => []
  | c :: cs =>
    match c.point with
    | SCHEDULE_POINT_LOOPER_BEFORE_EPOLL => true :: epoll_marks cs
    | SCHEDULE_POINT_LOOPER_AFTER_EPOLL => false :: epoll_marks cs
    | _ => epoll_marks cs

/-- A list of marks that alternates, its first mark (if any) being `first`. -/
def alternating : Bool → List Bool → Bool
  | _, [] => true
  | first, x :: xs => (x == first) && alternating (!first) xs

/-- The scenario's state with the looper in epoll since `t`. -/
def scenario_state_in_epoll (t : timespec) : implDetails_t :=
  { scenario_state with looper_in_epoll := 1, looper_epoll_start_time := t }

/-- The last mark of a list, or `none_yet` when the list is empty. -/
def last_mark : Bool → List Bool → Bool
  | none_yet, [] => none_yet
  | _, x :: xs => last_mark x xs

/-- The state `st` with `tp_degrees_of_freedom` replaced by `d`. -/
def with_tp_degrees_of_freedom (st : implDetails_t) (d : Int) : implDetails_t :=
  { st with args := { st.args with tp_degrees_of_freedom := d } }

/-- The calls of `random_shuffle` that the loop of `scheduler_tp_freedom__shuffle_events`
makes from iteration `i` on, as triples `(i, eventsP, this_chunk_len)`: the iteration, the
offset of the sub-buffer in items, and its length. Same recursion as `shuffle_loop`. -/
def shuffle_calls (chunk_len n_chunks last_chunk_len : Int) :
    (todo : Nat) → (i : Nat) → (eventsP : Nat) → List (Nat × Nat × Nat)
  | 0, _, _ => []
  | todo + 1, i, eventsP =>
    let this_chunk_len := if (i : Int) < n_chunks - 1 then chunk_len else last_chunk_len
    (i, eventsP, this_chunk_len.toNat) ::
      shuffle_calls chunk_len n_chunks last_chunk_len todo (i + 1)
        (eventsP + this_chunk_len.toNat)

/-- The effect of one call `random_shuffle(eventsP, this_chunk_len, item_size)` on the
buffer. -/
def apply_shuffle_call (random_shuffle : Nat → List uv__epoll_event → List uv__epoll_event)
    (events : List uv__epoll_event) (call : Nat × Nat × Nat) : List uv__epoll_event :=
  events.take call.2.1
    ++ random_shuffle call.1 ((events.drop call.2.1).take call.2.2)
    ++ events.drop (call.2.1 + call.2.2)

/-- A configuration that differs from the scenario's in its event-side degrees of freedom
only, which is `0`. -/
def zero_iopoll_args : scheduler_tp_freedom_args_t :=
  { scenario_args with iopoll_degrees_of_freedom := 0 }

/-! ## Lemmas on the timing helpers -/

theorem timespec_cmp_eq_one_iff (a b : timespec) (ha : timespec_wf a) (hb : timespec_wf b) :
    timespec_cmp a b = 1 ↔ timespec_ns b < timespec_ns a := by
  unfold timespec_wf at ha hb
  unfold timespec_cmp timespec_ns
  constructor
  · intro h
    split_ifs at h <;> omega
  · intro h
    split_ifs <;> omega

theorem timespec_us_sub (a b : timespec) (ha : timespec_wf a) (hb : timespec_wf b) :
    timespec_us (timespec_sub a b) = elapsed_us a b := by
  unfold timespec_wf at ha hb
  unfold timespec_us timespec_sub elapsed_us timespec_ns
  split_ifs with h1
  · simp only
    rw [Int.tdiv_eq_ediv (by omega) (by omega)]
    omega
  · simp only
    rw [Int.tdiv_eq_ediv (by omega) (by omega)]
    omega

/-- The duration the wants-work branch computes is the elapsed time, clamped at zero. -/
theorem clamped_diff_eq (a b : timespec) (ha : timespec_wf a) (hb : timespec_wf b) :
    (if timespec_cmp a b = 1 then timespec_us (timespec_sub a b) else 0)
      = max 0 (elapsed_us a b) := by
  by_cases h : timespec_ns b < timespec_ns a
  · rw [if_pos ((timespec_cmp_eq_one_iff a b ha hb).2 h), timespec_us_sub a b ha hb]
    have : 0 ≤ elapsed_us a b := by unfold elapsed_us; omega
    omega
  · rw [if_neg (fun hc => h ((timespec_cmp_eq_one_iff a b ha hb).1 hc))]
    have : elapsed_us a b ≤ 0 := by unfold elapsed_us; omega
    omega

/-! ## The wants-work policy -/

/-- The wants-work branch when the queue is present and the clock read succeeds, with the two
durations written as clamped elapsed times. -/
theorem thread_yield_wants_work_eq (env : Env) (st : implDetails_t) (d : spd_wants_work_t)
    (q : List Nat) (now : timespec) (hq : d.wq = some q) (hclk : env.clock_gettime = some now) :
    thread_yield_wants_work env st d =
      if 0 < st.args.tp_degrees_of_freedom ∧ st.args.tp_degrees_of_freedom ≤ (q.length : Int) then
        some { d with should_get_work := 1 }
      else if (st.args.tp_max_delay_us : Int) ≤
          (if timespec_cmp now d.start_time = 1 then
            timespec_us (timespec_sub now d.start_time) else 0) then
        some { d with should_get_work := 1 }
      else if st.looper_in_epoll ≠ 0 ∧ (st.args.tp_epoll_threshold : Int) ≤
          (if timespec_cmp now st.looper_epoll_start_time = 1 then
            timespec_us (timespec_sub now st.looper_epoll_start_time) else 0) then
        some { d with should_get_work := 1 }
      else some d := by
  unfold thread_yield_wants_work scheduler_tp_freedom__queue_len
  rw [hq, hclk]
  simp only [Int.natCast_nonneg, if_true]
  by_cases hl : st.looper_in_epoll = 0
  · simp [hl]
  · simp [hl]

/-- At the wants-work point a valid state and a wants-work payload reach the branch. -/
theorem thread_yield_at_wants_work (env : Env) (st : implDetails_t) (d : spd_wants_work_t)
    (hv : scheduler_tp_freedom__looks_valid st = true) :
    scheduler_tp_freedom_thread_yield env st SCHEDULE_POINT_TP_WANTS_WORK (.wants_work d) =
      (thread_yield_wants_work env st d).map (fun d1 => (st, pointDetails_t.wants_work d1)) := by
  unfold scheduler_tp_freedom_thread_yield
  simp only [hv, schedule_point_looks_valid, not_true_eq_false, if_false]
  cases thread_yield_wants_work env st d <;> rfl

/-- C1. Wants-work rule 1: in a valid state whose `tp_degrees_of_freedom` is `d ≥ 1`, with a
work queue of length at least `d`, the wants-work point returns with `should_get_work = 1`,
whatever the clock, the start of the wait, `looper_in_epoll` and `looper_epoll_start_time`. -/
theorem C1_wants_work_rule1 (env : Env) (st : implDetails_t) (d : spd_wants_work_t)
    (q : List Nat) (now : timespec)
    (hv : scheduler_tp_freedom__looks_valid st = true)
    (hdof : 1 ≤ st.args.tp_degrees_of_freedom)
    (hq : d.wq = some q) (hlen : st.args.tp_degrees_of_freedom ≤ (q.length : Int))
    (hclk : env.clock_gettime = some now) :
    scheduler_tp_freedom_thread_yield env st SCHEDULE_POINT_TP_WANTS_WORK (.wants_work d)
      = some (st, .wants_work { d with should_get_work := 1 }) := by
  rw [thread_yield_at_wants_work env st d hv, thread_yield_wants_work_eq env st d q now hq hclk]
  rw [if_pos ⟨by omega, hlen⟩]
  rfl

/-- The scenario of the specification for rule 1: queue length 5, wait 0, looper not blocked. -/
theorem C1_wants_work_rule1_witness :
    scheduler_tp_freedom_thread_yield (scenario_env ⟨10, 0⟩ 0) scenario_state
        SCHEDULE_POINT_TP_WANTS_WORK (.wants_work ⟨some [1, 2, 3, 4, 5], ⟨10, 0⟩, 0⟩)
      = some (scenario_state, .wants_work ⟨some [1, 2, 3, 4, 5], ⟨10, 0⟩, 1⟩) :=
  C1_wants_work_rule1 (scenario_env ⟨10, 0⟩ 0) scenario_state
    ⟨some [1, 2, 3, 4, 5], ⟨10, 0⟩, 0⟩ [1, 2, 3, 4, 5] ⟨10, 0⟩
    (by decide) (by decide) rfl (by decide) rfl

/-- C2. Wants-work rule 2 (starvation bound): in a valid state, when the time elapsed since
the requester's `start_time` is at least `tp_max_delay_us`, the wants-work point returns with
`should_get_work = 1`, whatever the queue length and the looper state. -/
theorem C2_wants_work_rule2 (env : Env) (st : implDetails_t) (d : spd_wants_work_t)
    (q : List Nat) (now : timespec)
    (hv : scheduler_tp_freedom__looks_valid st = true)
    (hq : d.wq = some q) (hclk : env.clock_gettime = some now)
    (hnow : timespec_wf now) (hstart : timespec_wf d.start_time)
    (hwait : (st.args.tp_max_delay_us : Int) ≤ elapsed_us now d.start_time) :
    scheduler_tp_freedom_thread_yield env st SCHEDULE_POINT_TP_WANTS_WORK (.wants_work d)
      = some (st, .wants_work { d with should_get_work := 1 }) := by
  rw [thread_yield_at_wants_work env st d hv, thread_yield_wants_work_eq env st d q now hq hclk]
  rw [clamped_diff_eq now d.start_time hnow hstart]
  have h2 : (st.args.tp_max_delay_us : Int) ≤ max 0 (elapsed_us now d.start_time) := by omega
  rw [if_pos h2]
  split_ifs <;> rfl

/-- The scenario of the specification for rule 2 with the queue emptied: queue length 0,
wait 1200 ms, looper not blocked. -/
theorem C2_wants_work_rule2_witness :
    scheduler_tp_freedom_thread_yield (scenario_env ⟨11, 200000000⟩ 0) scenario_state
        SCHEDULE_POINT_TP_WANTS_WORK (.wants_work ⟨some [], ⟨10, 0⟩, 0⟩)
      = some (scenario_state, .wants_work ⟨some [], ⟨10, 0⟩, 1⟩) :=
  C2_wants_work_rule2 (scenario_env ⟨11, 200000000⟩ 0) scenario_state
    ⟨some [], ⟨10, 0⟩, 0⟩ [] ⟨11, 200000000⟩
    (by decide) rfl rfl (by decide) (by decide) (by decide)

/-- C3. Wants-work rule 3 (epoll rule): in a valid state with `looper_in_epoll` set, when the
time elapsed since `looper_epoll_start_time` is at least `tp_epoll_threshold`, the wants-work
point returns with `should_get_work = 1`, whatever the queue length and the worker's wait. -/
theorem C3_wants_work_rule3 (env : Env) (st : implDetails_t) (d : spd_wants_work_t)
    (q : List Nat) (now : timespec)
    (hv : scheduler_tp_freedom__looks_valid st = true)
    (hq : d.wq = some q) (hclk : env.clock_gettime = some now)
    (hnow : timespec_wf now) (hstart : timespec_wf st.looper_epoll_start_time)
    (hin : st.looper_in_epoll ≠ 0)
    (hblocked : (st.args.tp_epoll_threshold : Int) ≤ elapsed_us now st.looper_epoll_start_time) :
    scheduler_tp_freedom_thread_yield env st SCHEDULE_POINT_TP_WANTS_WORK (.wants_work d)
      = some (st, .wants_work { d with should_get_work := 1 }) := by
  rw [thread_yield_at_wants_work env st d hv, thread_yield_wants_work_eq env st d q now hq hclk]
  rw [clamped_diff_eq now st.looper_epoll_start_time hnow hstart]
  have h3 : st.looper_in_epoll ≠ 0 ∧
      (st.args.tp_epoll_threshold : Int) ≤ max 0 (elapsed_us now st.looper_epoll_start_time) :=
    ⟨hin, by omega⟩
  rw [if_pos h3]
  split_ifs <;> rfl

/-- The scenario of the specification for rule 3: queue length 0, wait 0, looper blocked for
600 ms. -/
theorem C3_wants_work_rule3_witness :
    scheduler_tp_freedom_thread_yield (scenario_env ⟨10, 600000000⟩ 0)
        { scenario_state with looper_in_epoll := 1, looper_epoll_start_time := ⟨10, 0⟩ }
        SCHEDULE_POINT_TP_WANTS_WORK (.wants_work ⟨some [], ⟨10, 600000000⟩, 0⟩)
      = some ({ scenario_state with looper_in_epoll := 1, looper_epoll_start_time := ⟨10, 0⟩ },
          .wants_work ⟨some [], ⟨10, 600000000⟩, 1⟩) :=
  C3_wants_work_rule3 (scenario_env ⟨10, 600000000⟩ 0)
    { scenario_state with looper_in_epoll := 1, looper_epoll_start_time := ⟨10, 0⟩ }
    ⟨some [], ⟨10, 600000000⟩, 0⟩ [] ⟨10, 600000000⟩
    (by decide) rfl rfl (by decide) (by decide) (by decide) (by decide)

/-- When no rule fires (the durations being the elapsed times clamped at zero), the wants-work
point hands the payload back as it received it: `should_get_work` is not assigned on that
path. -/
theorem wants_work_deny_unchanged (env : Env) (st : implDetails_t) (d : spd_wants_work_t)
    (q : List Nat) (now : timespec)
    (hv : scheduler_tp_freedom__looks_valid st = true)
    (hq : d.wq = some q) (hclk : env.clock_gettime = some now)
    (hnow : timespec_wf now) (hstart : timespec_wf d.start_time)
    (hepoll : timespec_wf st.looper_epoll_start_time)
    (h1 : st.args.tp_degrees_of_freedom = -1 ∨ (q.length : Int) < st.args.tp_degrees_of_freedom)
    (h2 : max 0 (elapsed_us now d.start_time) < (st.args.tp_max_delay_us : Int))
    (h3 : st.looper_in_epoll = 0 ∨
      max 0 (elapsed_us now st.looper_epoll_start_time) < (st.args.tp_epoll_threshold : Int)) :
    scheduler_tp_freedom_thread_yield env st SCHEDULE_POINT_TP_WANTS_WORK (.wants_work d)
      = some (st, .wants_work d) := by
  rw [thread_yield_at_wants_work env st d hv, thread_yield_wants_work_eq env st d q now hq hclk]
  rw [clamped_diff_eq now d.start_time hnow hstart,
    clamped_diff_eq now st.looper_epoll_start_time hnow hepoll]
  rw [if_neg (by omega), if_neg (by omega), if_neg (by omega)]
  rfl

/-- C4 (the code at the failing input). With the configuration of the scenario, an empty
queue, no wait and the looper not blocked, no rule fires; the payload that entered with
`should_get_work = 1` leaves with `should_get_work = 1`, and the one that entered with `0`
leaves with `0`: the field is not written on the deny path. -/
theorem C4_deny_path_keeps_entry_value :
    scheduler_tp_freedom_thread_yield (scenario_env ⟨10, 0⟩ 0) scenario_state
        SCHEDULE_POINT_TP_WANTS_WORK (.wants_work ⟨some [], ⟨10, 0⟩, 1⟩)
      = some (scenario_state, .wants_work ⟨some [], ⟨10, 0⟩, 1⟩)
    ∧ scheduler_tp_freedom_thread_yield (scenario_env ⟨10, 0⟩ 0) scenario_state
        SCHEDULE_POINT_TP_WANTS_WORK (.wants_work ⟨some [], ⟨10, 0⟩, 0⟩)
      = some (scenario_state, .wants_work ⟨some [], ⟨10, 0⟩, 0⟩) := by
  constructor <;> decide

/-! ## Index selection -/

/-- The index choice on a non-empty queue: one draw below `MIN(wq_len, deg_freedom)`. -/
theorem thread_yield_choose_index_eq (env : Env) (st : implDetails_t) (q : List Nat)
    (hL : 1 ≤ q.length) :
    thread_yield_choose_index env st (some q) =
      some (env.rand_int 0 (MIN q.length
        (if st.args.tp_degrees_of_freedom = -1 then (q.length : Int)
          else st.args.tp_degrees_of_freedom))) := by
  unfold thread_yield_choose_index scheduler_tp_freedom__queue_len
  have h0 : (0 : Int) < (q.length : Int) := by omega
  simp [h0]

/-- C5. Index bound: in a valid state whose `tp_degrees_of_freedom` is `-1` or at least `1`,
for a queue of length `L ≥ 1` and draws that respect the contract of `rand_int`, the
getting-work and the getting-done points return with an index between `0` and
`min(L, w_effective) - 1`, where `w_effective` is `L` for `-1` and the bound otherwise; the
index is a position of the queue. -/
theorem C5_index_bound (env : Env) (st : implDetails_t) (q : List Nat) (ix0 : Int)
    (hv : scheduler_tp_freedom__looks_valid st = true)
    (hdof : st.args.tp_degrees_of_freedom = -1 ∨ 1 ≤ st.args.tp_degrees_of_freedom)
    (hL : 1 ≤ q.length)
    (hrand : ∀ (k : Nat) (n : Int), 0 < n → 0 ≤ env.rand_int k n ∧ env.rand_int k n < n) :
    ∃ ix : Int,
      scheduler_tp_freedom_thread_yield env st SCHEDULE_POINT_TP_GETTING_WORK
          (.getting_work ⟨some q, ix0⟩) = some (st, .getting_work ⟨some q, ix⟩)
      ∧ scheduler_tp_freedom_thread_yield env st SCHEDULE_POINT_LOOPER_GETTING_DONE
          (.getting_done ⟨some q, ix0⟩) = some (st, .getting_done ⟨some q, ix⟩)
      ∧ 0 ≤ ix
      ∧ ix ≤ min (q.length : Int)
          (if st.args.tp_degrees_of_freedom = -1 then (q.length : Int)
            else st.args.tp_degrees_of_freedom) - 1
      ∧ ix < (q.length : Int) := by
  refine ⟨env.rand_int 0 (MIN q.length
      (if st.args.tp_degrees_of_freedom = -1 then (q.length : Int)
        else st.args.tp_degrees_of_freedom)), ?_, ?_, ?_, ?_, ?_⟩
  · unfold scheduler_tp_freedom_thread_yield
    simp only [hv, schedule_point_looks_valid, not_true_eq_false, if_false]
    rw [thread_yield_choose_index_eq env st q hL]
  · unfold scheduler_tp_freedom_thread_yield
    simp only [hv, schedule_point_looks_valid, not_true_eq_false, if_false]
    rw [thread_yield_choose_index_eq env st q hL]
  all_goals
    have hr := hrand 0 (MIN q.length
      (if st.args.tp_degrees_of_freedom = -1 then (q.length : Int)
        else st.args.tp_degrees_of_freedom))
    unfold MIN at hr ⊢
    split_ifs at hr ⊢ <;> omega

/-- A queue of five items under the scenario's two degrees of freedom, the draw returning
the largest value it may: the index is `1`. -/
theorem C5_index_bound_witness :
    ∃ ix : Int,
      scheduler_tp_freedom_thread_yield
          { clock_gettime := none, rand_int := fun _ n => n - 1, random_shuffle := fun _ l => l }
          scenario_state SCHEDULE_POINT_TP_GETTING_WORK
          (.getting_work ⟨some [1, 2, 3, 4, 5], 0⟩)
        = some (scenario_state, .getting_work ⟨some [1, 2, 3, 4, 5], ix⟩)
      ∧ scheduler_tp_freedom_thread_yield
          { clock_gettime := none, rand_int := fun _ n => n - 1, random_shuffle := fun _ l => l }
          scenario_state SCHEDULE_POINT_LOOPER_GETTING_DONE
          (.getting_done ⟨some [1, 2, 3, 4, 5], 0⟩)
        = some (scenario_state, .getting_done ⟨some [1, 2, 3, 4, 5], ix⟩)
      ∧ 0 ≤ ix
      ∧ ix ≤ min (([1, 2, 3, 4, 5] : List Nat).length : Int)
          (if scenario_state.args.tp_degrees_of_freedom = -1
            then (([1, 2, 3, 4, 5] : List Nat).length : Int)
            else scenario_state.args.tp_degrees_of_freedom) - 1
      ∧ ix < (([1, 2, 3, 4, 5] : List Nat).length : Int) :=
  C5_index_bound
    { clock_gettime := none, rand_int := fun _ n => n - 1, random_shuffle := fun _ l => l }
    scenario_state [1, 2, 3, 4, 5] 0 (by decide) (by decide) (by decide)
    (fun _ n hn => ⟨by show 0 ≤ n - 1; omega, by show n - 1 < n; omega⟩)

/-! ## Chunking arithmetic -/

/-- The ceiling of a quotient of integers in terms of the integer division. -/
theorem ceil_div_eq (n c : Int) (hc : 0 < c) :
    ⌈(n : ℚ) / (c : ℚ)⌉ = if n % c ≠ 0 then n / c + 1 else n / c := by
  have hcq : (0 : ℚ) < (c : ℚ) := by exact_mod_cast hc
  have hdm := Int.ediv_add_emod n c
  have hm0 := Int.emod_nonneg n (ne_of_gt hc)
  have hm1 := Int.emod_lt_of_pos n hc
  rw [Int.ceil_eq_iff]
  split_ifs with h
  · have hpos : 0 < n % c := lt_of_le_of_ne hm0 (Ne.symm h)
    constructor
    · rw [lt_div_iff₀ hcq]
      have : (n / c) * c < n := by nlinarith
      push_cast
      have h2 : ((n / c : Int) : ℚ) * (c : ℚ) < (n : ℚ) := by exact_mod_cast this
      linarith
    · rw [div_le_iff₀ hcq]
      have : n ≤ (n / c + 1) * c := by nlinarith
      exact_mod_cast this
  · have h0 : n % c = 0 := by simpa using h
    have hn1 : n = (n / c) * c := by rw [h0] at hdm; linarith
    constructor
    · rw [lt_div_iff₀ hcq]
      have : (n / c - 1) * c < n := by nlinarith
      exact_mod_cast this
    · rw [div_le_iff₀ hcq]
      have : n ≤ (n / c) * c := by linarith
      exact_mod_cast this

/-- The chunking on a non-negative `nitems` and a valid `degrees_of_freedom`, with the
truncating operators of C replaced by the mathematical ones. -/
theorem shuffle_chunking_eq (degrees_of_freedom nitems : Int) (hn : 1 ≤ nitems)
    (hd : degrees_of_freedom = -1 ∨ 1 ≤ degrees_of_freedom) :
    shuffle_chunking degrees_of_freedom nitems =
      some (if degrees_of_freedom = -1 then nitems else degrees_of_freedom,
        (if nitems % (if degrees_of_freedom = -1 then nitems else degrees_of_freedom) ≠ 0
          then nitems / (if degrees_of_freedom = -1 then nitems else degrees_of_freedom) + 1
          else nitems / (if degrees_of_freedom = -1 then nitems else degrees_of_freedom)),
        (if nitems % (if degrees_of_freedom = -1 then nitems else degrees_of_freedom) = 0
          then (if degrees_of_freedom = -1 then nitems else degrees_of_freedom)
          else nitems % (if degrees_of_freedom = -1 then nitems else degrees_of_freedom))) := by
  unfold shuffle_chunking
  have hc : 0 < (if degrees_of_freedom = -1 then nitems else degrees_of_freedom) := by
    split_ifs <;> omega
  simp only [hc, if_true]
  rw [Int.tdiv_eq_ediv (by omega) (le_of_lt hc), Int.tmod_eq_emod (by omega) (le_of_lt hc)]

/-- C7. Chunking arithmetic: for `n ≥ 2` events and a chunk length `c ≥ 1` (`c = n` when the
degrees of freedom is `-1`), `scheduler_tp_freedom__shuffle_events` computes
`n_chunks = ceil(n / c)` and `last_chunk_len = n mod c`, or `c` when that remainder is zero. -/
theorem C7_chunking_arithmetic (degrees_of_freedom n : Int) (hn : 2 ≤ n)
    (hd : degrees_of_freedom = -1 ∨ 1 ≤ degrees_of_freedom) :
    shuffle_chunking degrees_of_freedom n =
      some (if degrees_of_freedom = -1 then n else degrees_of_freedom,
        ⌈(n : ℚ) / ((if degrees_of_freedom = -1 then n else degrees_of_freedom : Int) : ℚ)⌉,
        (if n % (if degrees_of_freedom = -1 then n else degrees_of_freedom) = 0
          then (if degrees_of_freedom = -1 then n else degrees_of_freedom)
          else n % (if degrees_of_freedom = -1 then n else degrees_of_freedom))) := by
  have hc : 0 < (if degrees_of_freedom = -1 then n else degrees_of_freedom) := by
    split_ifs <;> omega
  rw [shuffle_chunking_eq degrees_of_freedom n (by omega) hd, ceil_div_eq n _ hc]

/-- Seven events in windows of three: three chunks, the last of length one. -/
theorem C7_chunking_arithmetic_witness :
    shuffle_chunking 3 7 =
      some (if (3 : Int) = -1 then 7 else 3,
        ⌈((7 : Int) : ℚ) / ((if (3 : Int) = -1 then 7 else 3 : Int) : ℚ)⌉,
        (if (7 : Int) % (if (3 : Int) = -1 then 7 else 3) = 0
          then (if (3 : Int) = -1 then 7 else 3)
          else (7 : Int) % (if (3 : Int) = -1 then 7 else 3))) :=
  C7_chunking_arithmetic 3 7 (by decide) (by decide)

/-! ## The event shuffle -/

/-- Replacing the `len` items at offset `i * c` by a permutation of them permutes the `i`-th
window and leaves the others as they are. -/
theorem chunk_splice {α : Type} (c i len : Nat) (l s : List α)
    (hlen : len ≤ c) (hin : i * c + len ≤ l.length)
    (hend : len = c ∨ i * c + len = l.length)
    (hs : s.Perm ((l.drop (i * c)).take len)) (k : Nat) :
    (chunk c k (l.take (i * c) ++ s ++ l.drop (i * c + len))).Perm (chunk c k l) := by
  have hsl : s.length = len := by
    rw [hs.length_eq, List.length_take, List.length_drop]; omega
  have hA : (l.take (i * c)).length = i * c := by
    rw [List.length_take]; omega
  have hl : l = l.take (i * c) ++ ((l.drop (i * c)).take len ++ l.drop (i * c + len)) := by
    rw [← List.drop_drop, List.take_append_drop, List.take_append_drop]
  have hB : ((l.drop (i * c)).take len).length = len := by
    rw [List.length_take, List.length_drop]; omega
  unfold chunk
  rw [List.append_assoc]
  conv_rhs => rw [hl]
  rcases Nat.lt_trichotomy k i with hk | hk | hk
  · have h1 : (k + 1) * c ≤ i * c := Nat.mul_le_mul_right c hk
    have h2 : (k + 1) * c = k * c + c := by ring
    rw [List.drop_append_of_le_length (by omega), List.drop_append_of_le_length (by omega)]
    rw [List.take_append_of_le_length (by rw [List.length_drop]; omega),
      List.take_append_of_le_length (by rw [List.length_drop]; omega)]
  · subst hk
    have e1 : ∀ X : List α, List.drop (k * c) (l.take (k * c) ++ X) = X := by
      intro X
      have := List.drop_left (l.take (k * c)) X
      rwa [hA] at this
    rw [e1, e1]
    rcases hend with h | h
    · subst h
      rw [List.take_append_of_le_length (by omega), List.take_append_of_le_length (by omega)]
      rw [List.take_of_length_le (by omega), List.take_of_length_le (by omega)]
      exact hs
    · have hC : l.drop (k * c + len) = [] := List.drop_of_length_le (by omega)
      rw [hC, List.append_nil, List.append_nil]
      rw [List.take_of_length_le (by omega), List.take_of_length_le (by omega)]
      exact hs
  · have h1 : (i + 1) * c ≤ k * c := Nat.mul_le_mul_right c hk
    have h2 : (i + 1) * c = i * c + c := by ring
    have e2 : ∀ X : List α, X.length = len →
        List.drop (k * c) (l.take (i * c) ++ (X ++ l.drop (i * c + len)))
          = List.drop (k * c - i * c - len) (l.drop (i * c + len)) := by
      intro X hX
      rw [List.drop_append_eq_append_drop, List.drop_append_eq_append_drop, hA, hX]
      rw [List.drop_of_length_le (by omega), List.drop_of_length_le (by omega)]
      rfl
    rw [e2 s hsl, e2 _ hB]

/-- Replacing the `len` items at offset `off` by a permutation of them permutes the buffer. -/
theorem splice_perm {α : Type} (off len : Nat) (l s : List α)
    (hs : s.Perm ((l.drop off).take len)) :
    (l.take off ++ s ++ l.drop (off + len)).Perm l := by
  have hl : l = l.take off ++ (l.drop off).take len ++ l.drop (off + len) := by
    rw [List.append_assoc, ← List.drop_drop, List.take_append_drop, List.take_append_drop]
  conv_rhs => rw [hl]
  exact (List.Perm.append_left _ hs).append_right _

/-- The loop of the shuffle, run from iteration `i` with the cursor at `i * c`, keeps the
length of the buffer, permutes the buffer and permutes every window within itself. -/
theorem shuffle_loop_spec (rs : Nat → List uv__epoll_event → List uv__epoll_event)
    (hperm : ∀ k l, (rs k l).Perm l) (c m last : Nat)
    (hlast : 1 ≤ last) (hlc : last ≤ c) :
    ∀ (j i eventsP : Nat) (l : List uv__epoll_event), i + j = m →
      (0 < j → eventsP = i * c) → l.length = (m - 1) * c + last →
      (shuffle_loop rs c m last j i eventsP l).length = l.length ∧
      (shuffle_loop rs c m last j i eventsP l).Perm l ∧
      ∀ k, (chunk c k (shuffle_loop rs c m last j i eventsP l)).Perm (chunk c k l) := by
  intro j
  induction j with
  | zero =>
    intro i eventsP l _ _ _
    exact ⟨rfl, List.Perm.refl _, fun k => List.Perm.refl _⟩
  | succ j ih =>
    intro i eventsP l hj hP hl
    have hPe := hP (Nat.succ_pos j)
    subst hPe
    unfold shuffle_loop
    simp only
    by_cases hmid : i + 1 < m
    · have hc1 : (i : Int) < (m : Int) - 1 := by omega
      rw [if_pos hc1]
      simp only [Int.toNat_ofNat]
      have h1 : (i + 1) * c ≤ (m - 1) * c := Nat.mul_le_mul_right c (by omega)
      have h2 : (i + 1) * c = i * c + c := by ring
      have hs := hperm i ((l.drop (i * c)).take c)
      have hsl : (rs i ((l.drop (i * c)).take c)).length = c := by
        rw [hs.length_eq, List.length_take, List.length_drop]; omega
      have hlen1 : (l.take (i * c) ++ rs i ((l.drop (i * c)).take c)
          ++ l.drop (i * c + c)).length = l.length := by
        simp only [List.length_append, List.length_take, List.length_drop, hsl]; omega
      have := ih (i + 1) (i * c + c) _ (by omega) (fun _ => h2.symm)
        (by rw [hlen1]; exact hl)
      refine ⟨by rw [this.1, hlen1], this.2.1.trans (splice_perm (i * c) c l _ hs),
        fun k => (this.2.2 k).trans ?_⟩
      exact chunk_splice c i c l _ (le_refl c) (by omega) (Or.inl rfl) hs k
    · have hc1 : ¬ (i : Int) < (m : Int) - 1 := by omega
      rw [if_neg hc1]
      simp only [Int.toNat_ofNat]
      have him1 : i = m - 1 := by omega
      have hs := hperm i ((l.drop (i * c)).take last)
      have hsl : (rs i ((l.drop (i * c)).take last)).length = last := by
        rw [hs.length_eq, List.length_take, List.length_drop, him1]; omega
      have hlen1 : (l.take (i * c) ++ rs i ((l.drop (i * c)).take last)
          ++ l.drop (i * c + last)).length = l.length := by
        simp only [List.length_append, List.length_take, List.length_drop, hsl]
        rw [him1]; omega
      have := ih (i + 1) (i * c + last) _ (by omega) (fun h => by omega)
        (by rw [hlen1]; exact hl)
      refine ⟨by rw [this.1, hlen1], this.2.1.trans (splice_perm (i * c) last l _ hs),
        fun k => (this.2.2 k).trans ?_⟩
      exact chunk_splice c i last l _ hlc (by rw [him1]; omega)
        (Or.inr (by rw [him1]; omega)) hs k

/-- C6. The shuffle stays inside chunks: for every event array, every window size `w`
(`w ≥ 1`, or `-1` for the whole array) and every outcome of `random_shuffle` that permutes
the buffer it is given, `scheduler_tp_freedom__shuffle_events` returns, keeps the length of
the array, leaves the multiset of every window `[k * w, min ((k + 1) * w, n))` as it was, and
so leaves the multiset of the whole array as it was; with 7 events and window 3 the event at
index 6 stays at index 6. -/
theorem C6_shuffle_stays_inside_chunks
    (random_shuffle : Nat → List uv__epoll_event → List uv__epoll_event) (w : Int)
    (events : List uv__epoll_event)
    (hperm : ∀ k l, (random_shuffle k l).Perm l) (hw : w = -1 ∨ 1 ≤ w) :
    ∃ events1 : List uv__epoll_event,
      scheduler_tp_freedom__shuffle_events random_shuffle w events events.length = some events1
      ∧ events1.length = events.length
      ∧ (∀ k : Nat,
          (↑(chunk (if w = -1 then events.length else w.toNat) k events1) :
              Multiset uv__epoll_event)
            = ↑(chunk (if w = -1 then events.length else w.toNat) k events))
      ∧ (↑events1 : Multiset uv__epoll_event) = ↑events
      ∧ (events.length = 7 → w = 3 → events1[6]? = events[6]?) := by
  have key : ∃ events1 : List uv__epoll_event,
      scheduler_tp_freedom__shuffle_events random_shuffle w events events.length = some events1
      ∧ events1.length = events.length ∧ events1.Perm events
      ∧ ∀ k : Nat, (chunk (if w = -1 then events.length else w.toNat) k events1).Perm
          (chunk (if w = -1 then events.length else w.toNat) k events) := by
    unfold scheduler_tp_freedom__shuffle_events
    by_cases hn : (events.length : Int) ≤ 1
    · rw [if_pos hn]
      exact ⟨events, rfl, rfl, List.Perm.refl _, fun k => List.Perm.refl _⟩
    · rw [if_neg hn, shuffle_chunking_eq w events.length (by omega) hw]
      simp only
      obtain ⟨c, hcdef⟩ : ∃ c : Nat, c = (if w = -1 then events.length else w.toNat) := ⟨_, rfl⟩
      have hcw : (if w = -1 then (events.length : Int) else w) = (c : Int) := by
        rw [hcdef]; split_ifs <;> omega
      have hc1 : 1 ≤ c := by rw [hcdef]; split_ifs <;> omega
      rw [hcw, ← hcdef]
      have hdm := Nat.div_add_mod events.length c
      have hmlt := Nat.mod_lt events.length (show 0 < c by omega)
      obtain ⟨m, hmdef⟩ : ∃ m : Nat, m =
          (if events.length % c ≠ 0 then events.length / c + 1 else events.length / c) :=
        ⟨_, rfl⟩
      obtain ⟨last, hlastdef⟩ : ∃ last : Nat, last =
          (if events.length % c = 0 then c else events.length % c) := ⟨_, rfl⟩
      have hmI : (if (events.length : Int) % (c : Int) ≠ 0
          then (events.length : Int) / (c : Int) + 1 else (events.length : Int) / (c : Int))
          = (m : Int) := by
        rw [hmdef]; split_ifs with h1 h2 h2 <;> first | (push_cast; rfl) | (exfalso; omega)
      have hlastI : (if (events.length : Int) % (c : Int) = 0
          then (c : Int) else (events.length : Int) % (c : Int)) = (last : Int) := by
        rw [hlastdef]; split_ifs with h1 h2 h2 <;> first | (push_cast; rfl) | (exfalso; omega)
      rw [hmI, hlastI]
      have hlen : events.length = (m - 1) * c + last := by
        rw [hmdef, hlastdef]
        by_cases h0 : events.length % c = 0
        · have hq : 1 ≤ events.length / c := by
            rcases Nat.eq_zero_or_pos (events.length / c) with hz | hz
            · rw [hz, h0] at hdm; omega
            · exact hz
          rw [if_neg (by simpa using h0), if_pos h0]
          have : (events.length / c - 1) * c + c = c * (events.length / c) := by
            rw [Nat.sub_mul, Nat.one_mul, Nat.mul_comm c]
            have : c ≤ events.length / c * c := Nat.le_mul_of_pos_left c hq
            omega
          omega
        · rw [if_pos h0, if_neg h0, Nat.add_sub_cancel, Nat.mul_comm]; omega
      have hl1 : 1 ≤ last := by rw [hlastdef]; split_ifs <;> omega
      have hlc : last ≤ c := by rw [hlastdef]; split_ifs <;> omega
      rw [Int.toNat_ofNat]
      have hspec := shuffle_loop_spec random_shuffle hperm c m last hl1 hlc m 0 0 events
        (Nat.zero_add m) (fun _ => by simp) hlen
      exact ⟨_, rfl, hspec.1, hspec.2.1, hspec.2.2⟩
  obtain ⟨events1, h1, h2, h3, h4⟩ := key
  refine ⟨events1, h1, h2, fun k => Multiset.coe_eq_coe.2 (h4 k), Multiset.coe_eq_coe.2 h3, ?_⟩
  intro h7 hw3
  have hp := h4 2
  subst hw3
  simp only [show ¬ ((3 : Int) = -1) by decide, if_false, show (3 : Int).toNat = 3 from rfl]
    at hp
  have e1 : ∀ l : List uv__epoll_event, (chunk 3 2 l)[0]? = l[6]? := by
    intro l; simp [chunk]
  have hlen1 : (chunk 3 2 events).length = 1 := by
    simp [chunk, h7]
  obtain ⟨a, ha⟩ := List.length_eq_one.1 hlen1
  rw [ha] at hp
  have hp1 := List.perm_singleton.1 hp
  rw [← e1 events1, ← e1 events, hp1, ha]

/-- Seven events in windows of three under a shuffle that reverses its buffer. -/
theorem C6_shuffle_stays_inside_chunks_witness :
    ∃ events1 : List uv__epoll_event,
      scheduler_tp_freedom__shuffle_events (fun _ l => l.reverse) 3 seven_events
          seven_events.length = some events1
      ∧ events1.length = seven_events.length
      ∧ (∀ k : Nat,
          (↑(chunk (if (3 : Int) = -1 then seven_events.length else (3 : Int).toNat) k events1) :
              Multiset uv__epoll_event)
            = ↑(chunk (if (3 : Int) = -1 then seven_events.length else (3 : Int).toNat) k
                seven_events))
      ∧ (↑events1 : Multiset uv__epoll_event) = ↑seven_events
      ∧ (seven_events.length = 7 → (3 : Int) = 3 → events1[6]? = seven_events[6]?) :=
  C6_shuffle_stays_inside_chunks (fun _ l => l.reverse) 3 seven_events
    (fun _ l => List.reverse_perm l) (by decide)

/-! ## Deferral -/

/-- When the initialisation returns, and what it returns. -/
theorem scheduler_tp_freedom_init_eq_some_iff (tpSize : Option String) (atoi : String → Int)
    (mode : Int) (args : Option scheduler_tp_freedom_args_t)
    (schedulerImpl : Option schedulerImpl_t) (st0 : implDetails_t) (impl : schedulerImpl_t) :
    scheduler_tp_freedom_init tpSize atoi mode args schedulerImpl = some (st0, impl) ↔
      ∃ a t s, args = some a ∧ schedulerImpl = some t ∧ tpSize = some s ∧ atoi s = 1
        ∧ (a.tp_degrees_of_freedom = -1 ∨ 1 ≤ a.tp_degrees_of_freedom)
        ∧ (0 ≤ a.iopoll_defer_perc ∧ a.iopoll_defer_perc ≤ 100)
        ∧ st0 = ⟨SCHEDULER_TP_FREEDOM_MAGIC, mode, a, 0, ⟨0, 0⟩⟩
        ∧ impl = populated_schedulerImpl := by
  unfold scheduler_tp_freedom_init populated_schedulerImpl tpFreedom_implDetails_zero
  cases args with
  | none => simp
  | some a =>
    cases schedulerImpl with
    | none => simp
    | some t =>
      cases tpSize with
      | none => simp
      | some s =>
        simp only [Option.some.injEq, exists_and_left, exists_eq_left']
        by_cases h1 : atoi s = 1
        · by_cases h2 : a.tp_degrees_of_freedom = -1 ∨ 1 ≤ a.tp_degrees_of_freedom
          · by_cases h3 : 0 ≤ a.iopoll_defer_perc ∧ a.iopoll_defer_perc ≤ 100
            · simp only [h1, h2, h3, if_true, Option.some.injEq, Prod.mk.injEq, true_and]
              constructor
              · rintro ⟨h4, h5⟩; exact ⟨h4.symm, h5.symm⟩
              · rintro ⟨h4, h5⟩; exact ⟨h4.symm, h5.symm⟩
            · simp [h1, h2, h3]
          · simp [h1, h2]
        · simp [h1]

/-- C10. Initialisation rejects a bad worker-side configuration:
`scheduler_tp_freedom_init` aborts when `tp_degrees_of_freedom` is neither `-1` nor at least
`1`, when `iopoll_defer_perc` is outside `[0, 100]`, when `UV_THREADPOOL_SIZE` is absent and
when its value is not `1`; with non-null arguments and all of these satisfied it returns,
with the state reset and filled in and the table populated. -/
theorem C10_init_rejects_bad_configuration (tpSize : Option String) (atoi : String → Int)
    (mode : Int) (args : Option scheduler_tp_freedom_args_t)
    (schedulerImpl : Option schedulerImpl_t) :
    (∀ a, args = some a → ¬ (a.tp_degrees_of_freedom = -1 ∨ 1 ≤ a.tp_degrees_of_freedom) →
      scheduler_tp_freedom_init tpSize atoi mode args schedulerImpl = none)
    ∧ (∀ a, args = some a → ¬ (0 ≤ a.iopoll_defer_perc ∧ a.iopoll_defer_perc ≤ 100) →
      scheduler_tp_freedom_init tpSize atoi mode args schedulerImpl = none)
    ∧ (tpSize = none → scheduler_tp_freedom_init tpSize atoi mode args schedulerImpl = none)
    ∧ (∀ s, tpSize = some s → atoi s ≠ 1 →
      scheduler_tp_freedom_init tpSize atoi mode args schedulerImpl = none)
    ∧ (∀ a t s, args = some a → schedulerImpl = some t → tpSize = some s → atoi s = 1 →
      (a.tp_degrees_of_freedom = -1 ∨ 1 ≤ a.tp_degrees_of_freedom) →
      (0 ≤ a.iopoll_defer_perc ∧ a.iopoll_defer_perc ≤ 100) →
      scheduler_tp_freedom_init tpSize atoi mode args schedulerImpl
        = some (⟨SCHEDULER_TP_FREEDOM_MAGIC, mode, a, 0, ⟨0, 0⟩⟩, populated_schedulerImpl)) := by
  have hnone : (∀ st0 impl,
      scheduler_tp_freedom_init tpSize atoi mode args schedulerImpl ≠ some (st0, impl)) →
      scheduler_tp_freedom_init tpSize atoi mode args schedulerImpl = none := by
    intro h
    cases hr : scheduler_tp_freedom_init tpSize atoi mode args schedulerImpl with
    | none => rfl
    | some r => exact absurd hr (h r.1 r.2)
  refine ⟨?_, ?_, ?_, ?_, ?_⟩
  · intro a ha hbad
    apply hnone
    intro st0 impl h
    obtain ⟨a1, _, _, ha1, _, _, _, hd, _⟩ :=
      (scheduler_tp_freedom_init_eq_some_iff tpSize atoi mode args schedulerImpl st0 impl).1 h
    rw [ha] at ha1
    cases ha1
    exact hbad hd
  · intro a ha hbad
    apply hnone
    intro st0 impl h
    obtain ⟨a1, _, _, ha1, _, _, _, _, hp, _⟩ :=
      (scheduler_tp_freedom_init_eq_some_iff tpSize atoi mode args schedulerImpl st0 impl).1 h
    rw [ha] at ha1
    cases ha1
    exact hbad hp
  · intro hs
    apply hnone
    intro st0 impl h
    obtain ⟨_, _, s1, _, _, hs1, _⟩ :=
      (scheduler_tp_freedom_init_eq_some_iff tpSize atoi mode args schedulerImpl st0 impl).1 h
    rw [hs] at hs1
    cases hs1
  · intro s hs hbad
    apply hnone
    intro st0 impl h
    obtain ⟨_, _, s1, _, _, hs1, h1, _⟩ :=
      (scheduler_tp_freedom_init_eq_some_iff tpSize atoi mode args schedulerImpl st0 impl).1 h
    rw [hs] at hs1
    cases hs1
    exact hbad h1
  · intro a t s ha ht hs h1 hd hp
    exact (scheduler_tp_freedom_init_eq_some_iff tpSize atoi mode args schedulerImpl _ _).2
      ⟨a, t, s, ha, ht, hs, h1, hd, hp, rfl, rfl⟩

/-- With the pool width set to one the scenario's configuration is accepted, and with a
width of four it is refused. -/
theorem C10_init_rejects_bad_configuration_witness :
    scheduler_tp_freedom_init (some "1")
        (fun s => if s = "1" then 1 else 4) 0
        (some scenario_args) (some populated_schedulerImpl)
      = some (⟨SCHEDULER_TP_FREEDOM_MAGIC, 0, scenario_args, 0, ⟨0, 0⟩⟩, populated_schedulerImpl)
    ∧ scheduler_tp_freedom_init (some "4")
        (fun s => if s = "1" then 1 else 4) 0
        (some scenario_args) (some populated_schedulerImpl) = none :=
  ⟨(C10_init_rejects_bad_configuration (some "1")
      (fun s => if s = "1" then 1 else 4) 0
      (some scenario_args) (some populated_schedulerImpl)).2.2.2.2
      scenario_args populated_schedulerImpl "1"
      rfl rfl rfl (by decide) (by decide) (by decide),
    (C10_init_rejects_bad_configuration (some "4")
      (fun s => if s = "1" then 1 else 4) 0
      (some scenario_args) (some populated_schedulerImpl)).2.2.2.1
      "4" rfl (by decide)⟩

/-! ## Epoll boundary -/

/-- C9. Epoll alternation is enforced: a before-epoll call made while `looper_in_epoll` is
set aborts, and an after-epoll call made while it is clear aborts. Hence a before-epoll call
that follows a before-epoll call which returned aborts, an after-epoll call that follows an
after-epoll call which returned aborts, and so does an after-epoll call made right after a
successful initialisation. -/
theorem C9_epoll_alternation_enforced (env env1 : Env) (st : implDetails_t)
    (pd pd1 : pointDetails_t) :
    (st.looper_in_epoll ≠ 0 →
      scheduler_tp_freedom_thread_yield env st SCHEDULE_POINT_LOOPER_BEFORE_EPOLL pd = none)
    ∧ (st.looper_in_epoll = 0 →
      scheduler_tp_freedom_thread_yield env st SCHEDULE_POINT_LOOPER_AFTER_EPOLL pd = none)
    ∧ (∀ st1 pd2,
        scheduler_tp_freedom_thread_yield env st SCHEDULE_POINT_LOOPER_BEFORE_EPOLL pd
          = some (st1, pd2) →
        scheduler_tp_freedom_thread_yield env1 st1 SCHEDULE_POINT_LOOPER_BEFORE_EPOLL pd1 = none)
    ∧ (∀ st1 pd2,
        scheduler_tp_freedom_thread_yield env st SCHEDULE_POINT_LOOPER_AFTER_EPOLL pd
          = some (st1, pd2) →
        scheduler_tp_freedom_thread_yield env1 st1 SCHEDULE_POINT_LOOPER_AFTER_EPOLL pd1 = none)
    ∧ (∀ tpSize atoi mode args schedulerImpl st0 impl,
        scheduler_tp_freedom_init tpSize atoi mode args schedulerImpl = some (st0, impl) →
        scheduler_tp_freedom_thread_yield env st0 SCHEDULE_POINT_LOOPER_AFTER_EPOLL pd = none) := by
  have hbefore : ∀ (e : Env) (s : implDetails_t) (p : pointDetails_t), s.looper_in_epoll ≠ 0 →
      scheduler_tp_freedom_thread_yield e s SCHEDULE_POINT_LOOPER_BEFORE_EPOLL p = none := by
    intro e s p h
    unfold scheduler_tp_freedom_thread_yield
    split_ifs <;> simp_all
  have hafter : ∀ (e : Env) (s : implDetails_t) (p : pointDetails_t), s.looper_in_epoll = 0 →
      scheduler_tp_freedom_thread_yield e s SCHEDULE_POINT_LOOPER_AFTER_EPOLL p = none := by
    intro e s p h
    unfold scheduler_tp_freedom_thread_yield
    split_ifs <;> simp_all
  refine ⟨hbefore env st pd, hafter env st pd, ?_, ?_, ?_⟩
  · intro st1 pd2 h
    apply hbefore
    unfold scheduler_tp_freedom_thread_yield at h
    split_ifs at h
    cases hc : env.clock_gettime with
    | none => rw [hc] at h; simp at h
    | some t =>
      rw [hc] at h
      simp only [Option.some.injEq, Prod.mk.injEq] at h
      rw [← h.1]
      show (1 : Int) ≠ 0
      decide
  · intro st1 pd2 h
    apply hafter
    unfold scheduler_tp_freedom_thread_yield at h
    split_ifs at h
    simp only [Option.some.injEq, Prod.mk.injEq] at h
    rw [← h.1]
  · intro tpSize atoi mode args schedulerImpl st0 impl h
    apply hafter
    obtain ⟨a, t, s, _, _, _, _, _, _, hst, _⟩ :=
      (scheduler_tp_freedom_init_eq_some_iff tpSize atoi mode args schedulerImpl st0 impl).1 h
    rw [hst]

/-- From the scenario's state: after-epoll first aborts, and once the looper is in epoll a
further before-epoll aborts. -/
theorem C9_epoll_alternation_enforced_witness :
    scheduler_tp_freedom_thread_yield (scenario_env ⟨10, 0⟩ 0)
        { scenario_state with looper_in_epoll := 1 }
        SCHEDULE_POINT_LOOPER_BEFORE_EPOLL .before_epoll = none
    ∧ scheduler_tp_freedom_thread_yield (scenario_env ⟨10, 0⟩ 0) scenario_state
        SCHEDULE_POINT_LOOPER_AFTER_EPOLL .after_epoll = none :=
  ⟨(C9_epoll_alternation_enforced (scenario_env ⟨10, 0⟩ 0) (scenario_env ⟨10, 0⟩ 0)
      { scenario_state with looper_in_epoll := 1 } .before_epoll .before_epoll).1 (by decide),
    (C9_epoll_alternation_enforced (scenario_env ⟨10, 0⟩ 0) (scenario_env ⟨10, 0⟩ 0)
      scenario_state .after_epoll .after_epoll).2.1 (by decide)⟩

/-! ## Validation of the event-side degrees of freedom -/

/-- C11 (the code at the failing input). With `UV_THREADPOOL_SIZE=1` and a configuration
whose `iopoll_degrees_of_freedom` is `0`, `scheduler_tp_freedom_init` returns; the state it
leaves holds `iopoll_degrees_of_freedom = 0`, and the point before handling events, given two
events, then aborts on `assert(0 < chunk_len)` inside the shuffle. The same holds for `-2`. -/
theorem C11_init_accepts_bad_iopoll_degrees :
    scheduler_tp_freedom_init (some "1") (fun s => if s = "1" then 1 else 0) 0
        (some zero_iopoll_args) (some populated_schedulerImpl)
      = some (⟨SCHEDULER_TP_FREEDOM_MAGIC, 0, zero_iopoll_args, 0, ⟨0, 0⟩⟩,
          populated_schedulerImpl)
    ∧ zero_iopoll_args.iopoll_degrees_of_freedom = 0
    ∧ scheduler_tp_freedom_thread_yield (scenario_env ⟨10, 0⟩ 0)
        ⟨SCHEDULER_TP_FREEDOM_MAGIC, 0, zero_iopoll_args, 0, ⟨0, 0⟩⟩
        SCHEDULE_POINT_LOOPER_IOPOLL_BEFORE_HANDLING_EVENTS
        (.iopoll_before_handling_events ⟨2, seven_events.take 2, [1, 1]⟩) = none
    ∧ (scheduler_tp_freedom_init (some "1") (fun s => if s = "1" then 1 else 0) 0
        (some { scenario_args with iopoll_degrees_of_freedom := -2 })
        (some populated_schedulerImpl)).isSome = true := by
  refine ⟨?_, ?_, ?_, ?_⟩ <;> decide

/-! ## Small batches -/

/-- C12 (counterexample). One ready event whose output entry holds `0` on entry, under the
scenario's defer percentage of `0`: the point rewrites the entry to `1`, so the output array
is not the same after the call as before it. -/
theorem C12_single_event_is_rewritten :
    scheduler_tp_freedom_thread_yield (scenario_env ⟨10, 0⟩ 0) scenario_state
        SCHEDULE_POINT_LOOPER_IOPOLL_BEFORE_HANDLING_EVENTS
        (.iopoll_before_handling_events ⟨1, seven_events.take 1, [0]⟩)
      = some (scenario_state, .iopoll_before_handling_events ⟨1, seven_events.take 1, [1]⟩)
    ∧ ([1] : List Int) ≠ [0] := by
  constructor <;> decide

/-- C12 (amended). For a batch of `n ≤ 1` ready events, in a valid state and whatever the
configuration and the draws, the point before handling events returns and leaves the event
array as it was; for `n ≤ 0` the whole payload is as it was; for `n = 1` entry `0` of
`should_handle_event` is written by the deferral rule and the other entries are as they
were. -/
theorem C12_small_batches (env : Env) (st : implDetails_t)
    (d : spd_iopoll_before_handling_events_t)
    (hv : scheduler_tp_freedom__looks_valid st = true) (hn : d.nevents ≤ 1) :
    ∃ d1 : spd_iopoll_before_handling_events_t,
      scheduler_tp_freedom_thread_yield env st SCHEDULE_POINT_LOOPER_IOPOLL_BEFORE_HANDLING_EVENTS
          (.iopoll_before_handling_events d) = some (st, .iopoll_before_handling_events d1)
      ∧ d1.nevents = d.nevents
      ∧ d1.events = d.events
      ∧ (d.nevents ≤ 0 → d1 = d)
      ∧ (d.nevents = 1 → d1.should_handle_event =
          d.should_handle_event.set 0
            (if env.rand_int 0 100 < st.args.iopoll_defer_perc then 0 else 1)) := by
  unfold scheduler_tp_freedom_thread_yield
  simp only [hv, schedule_point_looks_valid, not_true_eq_false, if_false]
  by_cases h0 : 0 < d.nevents
  · have h1 : d.nevents = 1 := by omega
    rw [if_pos h0]
    unfold scheduler_tp_freedom__shuffle_events
    rw [if_pos hn]
    refine ⟨_, rfl, rfl, rfl, fun h => by omega, fun _ => ?_⟩
    simp only [h1]
    show defer_loop env.rand_int st.args.iopoll_defer_perc 1 0 d.should_handle_event = _
    unfold defer_loop
    simp only [defer_loop]
    split_ifs <;> simp_all
  · rw [if_neg h0]
    exact ⟨d, rfl, rfl, rfl, fun _ => rfl, fun h => by omega⟩

/-- An empty batch leaves the payload as it was; a batch of one event with a defer
percentage of `0` gets its entry set to `1`. -/
theorem C12_small_batches_witness :
    ∃ d1 : spd_iopoll_before_handling_events_t,
      scheduler_tp_freedom_thread_yield (scenario_env ⟨10, 0⟩ 0) scenario_state
          SCHEDULE_POINT_LOOPER_IOPOLL_BEFORE_HANDLING_EVENTS
          (.iopoll_before_handling_events ⟨1, seven_events.take 1, [0]⟩)
        = some (scenario_state, .iopoll_before_handling_events d1)
      ∧ d1.nevents = 1
      ∧ d1.events = seven_events.take 1
      ∧ ((1 : Int) ≤ 0 → d1 = ⟨1, seven_events.take 1, [0]⟩)
      ∧ ((1 : Int) = 1 → d1.should_handle_event =
          ([0] : List Int).set 0
            (if (scenario_env ⟨10, 0⟩ 0).rand_int 0 100 < scenario_state.args.iopoll_defer_perc
              then 0 else 1)) :=
  C12_small_batches (scenario_env ⟨10, 0⟩ 0) scenario_state ⟨1, seven_events.take 1, [0]⟩
    (by decide) (by decide)

/-! ## The validity marker -/

/-- C13. Use before initialisation is fatal: in a state whose marker is not
`SCHEDULER_TP_FREEDOM_MAGIC`, `register_lcbn`, `next_lcbn_type`, `thread_yield` at every
point, `emit`, `lcbns_remaining` and `schedule_has_diverged` all abort; the zero-initialised
state is such a state; and the state a successful `scheduler_tp_freedom_init` leaves passes
the check. -/
theorem C13_use_before_init_is_fatal (st : implDetails_t) :
    (st.magic ≠ SCHEDULER_TP_FREEDOM_MAGIC →
      (∀ lcbn, scheduler_tp_freedom_register_lcbn st lcbn = none)
      ∧ scheduler_tp_freedom_next_lcbn_type st = none
      ∧ (∀ env point pointDetails,
          scheduler_tp_freedom_thread_yield env st point pointDetails = none)
      ∧ (∀ files output_file, scheduler_tp_freedom_emit st files output_file = none)
      ∧ scheduler_tp_freedom_lcbns_remaining st = none
      ∧ scheduler_tp_freedom_schedule_has_diverged st = none)
    ∧ tpFreedom_implDetails_zero.magic ≠ SCHEDULER_TP_FREEDOM_MAGIC
    ∧ (∀ tpSize atoi mode args schedulerImpl st0 impl,
        scheduler_tp_freedom_init tpSize atoi mode args schedulerImpl = some (st0, impl) →
        scheduler_tp_freedom__looks_valid st0 = true) := by
  refine ⟨fun hbad => ?_, by decide, ?_⟩
  · have hv : scheduler_tp_freedom__looks_valid st = false := by
      unfold scheduler_tp_freedom__looks_valid
      exact decide_eq_false hbad
    refine ⟨fun lcbn => ?_, ?_, fun env point pd => ?_, fun files f => ?_, ?_, ?_⟩
    · unfold scheduler_tp_freedom_register_lcbn; simp [hv]
    · unfold scheduler_tp_freedom_next_lcbn_type; simp [hv]
    · unfold scheduler_tp_freedom_thread_yield; simp [hv]
    · unfold scheduler_tp_freedom_emit; simp [hv]
    · unfold scheduler_tp_freedom_lcbns_remaining; simp [hv]
    · unfold scheduler_tp_freedom_schedule_has_diverged; simp [hv]
  · intro tpSize atoi mode args schedulerImpl st0 impl h
    obtain ⟨a, t, s, _, _, _, _, _, _, hst, _⟩ :=
      (scheduler_tp_freedom_init_eq_some_iff tpSize atoi mode args schedulerImpl st0 impl).1 h
    rw [hst]
    rfl

/-- In the zero-initialised state the wants-work point and the remaining-callbacks query
abort. -/
theorem C13_use_before_init_is_fatal_witness :
    scheduler_tp_freedom_thread_yield (scenario_env ⟨10, 0⟩ 0) tpFreedom_implDetails_zero
        SCHEDULE_POINT_TP_WANTS_WORK (.wants_work ⟨some [1], ⟨10, 0⟩, 0⟩) = none
    ∧ scheduler_tp_freedom_lcbns_remaining tpFreedom_implDetails_zero = none :=
  ⟨((C13_use_before_init_is_fatal tpFreedom_implDetails_zero).1 (by decide)).2.2.1
      (scenario_env ⟨10, 0⟩ 0) SCHEDULE_POINT_TP_WANTS_WORK (.wants_work ⟨some [1], ⟨10, 0⟩, 0⟩),
    ((C13_use_before_init_is_fatal tpFreedom_implDetails_zero).1 (by decide)).2.2.2.2.1⟩

/-! ## Frame -/

/-- What a returning call of `scheduler_tp_freedom_thread_yield` can have changed: by case
on the point, the state and the payload it leaves. -/
theorem thread_yield_cases (env : Env) (st st1 : implDetails_t) (point : schedule_point_t)
    (pd pd1 : pointDetails_t)
    (h : scheduler_tp_freedom_thread_yield env st point pd = some (st1, pd1)) :
    scheduler_tp_freedom__looks_valid st = true ∧
    ((point = SCHEDULE_POINT_TP_WANTS_WORK ∧ st1 = st ∧
        ∃ d d1, pd = .wants_work d ∧ pd1 = .wants_work d1 ∧
          thread_yield_wants_work env st d = some d1)
      ∨ (point = SCHEDULE_POINT_TP_GETTING_WORK ∧ st1 = st ∧
        ∃ d ix, pd = .getting_work d ∧ pd1 = .getting_work ⟨d.wq, ix⟩ ∧
          thread_yield_choose_index env st d.wq = some ix)
      ∨ (point = SCHEDULE_POINT_LOOPER_GETTING_DONE ∧ st1 = st ∧
        ∃ d ix, pd = .getting_done d ∧ pd1 = .getting_done ⟨d.wq, ix⟩ ∧
          thread_yield_choose_index env st d.wq = some ix)
      ∨ (point = SCHEDULE_POINT_LOOPER_BEFORE_EPOLL ∧ pd1 = pd ∧ st.looper_in_epoll = 0 ∧
        ∃ t, env.clock_gettime = some t ∧
          st1 = { st with looper_in_epoll := 1, looper_epoll_start_time := t })
      ∨ (point = SCHEDULE_POINT_LOOPER_AFTER_EPOLL ∧ pd1 = pd ∧ st.looper_in_epoll ≠ 0 ∧
          st1 = { st with looper_in_epoll := 0 })
      ∨ (point = SCHEDULE_POINT_LOOPER_IOPOLL_BEFORE_HANDLING_EVENTS ∧ st1 = st ∧
        ∃ d d1, pd = .iopoll_before_handling_events d ∧
          pd1 = .iopoll_before_handling_events d1 ∧ d1.nevents = d.nevents)
      ∨ (point = SCHEDULE_POINT_OTHER ∧ st1 = st ∧ pd1 = pd)) := by
  by_cases hv : scheduler_tp_freedom__looks_valid st = true
  swap
  · simp [scheduler_tp_freedom_thread_yield, hv] at h
  refine ⟨hv, ?_⟩
  cases point <;> cases pd <;>
    (try (simp [scheduler_tp_freedom_thread_yield, hv, schedule_point_looks_valid] at h; done))
  · rename_i d
    simp only [scheduler_tp_freedom_thread_yield, hv, schedule_point_looks_valid,
      not_true_eq_false, if_false] at h
    cases hw : thread_yield_wants_work env st d with
    | none => rw [hw] at h; simp at h
    | some d1 =>
      rw [hw] at h
      simp only [Option.some.injEq, Prod.mk.injEq] at h
      exact Or.inl ⟨rfl, h.1.symm, d, d1, rfl, h.2.symm, hw⟩
  · rename_i d
    simp only [scheduler_tp_freedom_thread_yield, hv, schedule_point_looks_valid,
      not_true_eq_false, if_false] at h
    cases hw : thread_yield_choose_index env st d.wq with
    | none => rw [hw] at h; simp at h
    | some ix =>
      rw [hw] at h
      simp only [Option.some.injEq, Prod.mk.injEq] at h
      exact Or.inr (Or.inl ⟨rfl, h.1.symm, d, ix, rfl, h.2.symm, hw⟩)
  · rename_i d
    simp only [scheduler_tp_freedom_thread_yield, hv, schedule_point_looks_valid,
      not_true_eq_false, if_false] at h
    cases hw : thread_yield_choose_index env st d.wq with
    | none => rw [hw] at h; simp at h
    | some ix =>
      rw [hw] at h
      simp only [Option.some.injEq, Prod.mk.injEq] at h
      exact Or.inr (Or.inr (Or.inl ⟨rfl, h.1.symm, d, ix, rfl, h.2.symm, hw⟩))
  · simp only [scheduler_tp_freedom_thread_yield, hv, schedule_point_looks_valid,
      not_true_eq_false, if_false] at h
    by_cases hl : st.looper_in_epoll = 0
    · cases hc : env.clock_gettime with
      | none => simp [hl, hc] at h
      | some t =>
        simp only [hl, hc, ne_eq, not_true_eq_false, if_false, Option.some.injEq,
          Prod.mk.injEq] at h
        refine Or.inr (Or.inr (Or.inr (Or.inl ⟨rfl, h.2.symm, hl, t, rfl, ?_⟩)))
        rw [← h.1]
    · simp [hl] at h
  · simp only [scheduler_tp_freedom_thread_yield, hv, schedule_point_looks_valid,
      not_true_eq_false, if_false] at h
    by_cases hl : st.looper_in_epoll = 0
    · simp [hl] at h
    · simp only [hl, ne_eq, not_false_eq_true, if_true, Option.some.injEq, Prod.mk.injEq] at h
      exact Or.inr (Or.inr (Or.inr (Or.inr (Or.inl ⟨rfl, h.2.symm, hl, h.1.symm⟩))))
  · rename_i d
    simp only [scheduler_tp_freedom_thread_yield, hv, schedule_point_looks_valid,
      not_true_eq_false, if_false] at h
    by_cases hn : 0 < d.nevents
    · rw [if_pos hn] at h
      cases hs : scheduler_tp_freedom__shuffle_events env.random_shuffle
          st.args.iopoll_degrees_of_freedom d.events d.nevents with
      | none => rw [hs] at h; simp at h
      | some ev =>
        rw [hs] at h
        simp only [Option.some.injEq, Prod.mk.injEq] at h
        exact Or.inr (Or.inr (Or.inr (Or.inr (Or.inr (Or.inl
          ⟨rfl, h.1.symm, d, _, rfl, h.2.symm, rfl⟩)))))
    · rw [if_neg hn] at h
      simp only [Option.some.injEq, Prod.mk.injEq] at h
      exact Or.inr (Or.inr (Or.inr (Or.inr (Or.inr (Or.inl
        ⟨rfl, h.1.symm, d, d, rfl, h.2.symm, rfl⟩)))))
  · simp only [scheduler_tp_freedom_thread_yield, hv, schedule_point_looks_valid,
      not_true_eq_false, if_false, Option.some.injEq, Prod.mk.injEq] at h
    exact Or.inr (Or.inr (Or.inr (Or.inr (Or.inr (Or.inr ⟨rfl, h.1.symm, h.2.symm⟩)))))

/-- The wants-work branch leaves the input fields of its payload as they were. -/
theorem thread_yield_wants_work_frame (env : Env) (st : implDetails_t)
    (d d1 : spd_wants_work_t) (h : thread_yield_wants_work env st d = some d1) :
    d1.wq = d.wq ∧ d1.start_time = d.start_time := by
  unfold thread_yield_wants_work at h
  cases hq : scheduler_tp_freedom__queue_len d.wq with
  | none => rw [hq] at h; simp at h
  | some n =>
    cases hc : env.clock_gettime with
    | none => rw [hq, hc] at h; simp at h
    | some now =>
      rw [hq, hc] at h
      simp only at h
      split_ifs at h <;> simp only [Option.some.injEq] at h <;> rw [← h] <;> exact ⟨rfl, rfl⟩

/-- A returning call leaves the marker, the mode and the configuration as they were, and
the marker is the magic value. -/
theorem thread_yield_keeps_config (env : Env) (st st1 : implDetails_t)
    (point : schedule_point_t) (pd pd1 : pointDetails_t)
    (h : scheduler_tp_freedom_thread_yield env st point pd = some (st1, pd1)) :
    st1.magic = st.magic ∧ st1.mode = st.mode ∧ st1.args = st.args
      ∧ scheduler_tp_freedom__looks_valid st1 = true := by
  obtain ⟨hv, hc⟩ := thread_yield_cases env st st1 point pd pd1 h
  have key : st1.magic = st.magic ∧ st1.mode = st.mode ∧ st1.args = st.args := by
    rcases hc with ⟨_, h1, _⟩ | ⟨_, h1, _⟩ | ⟨_, h1, _⟩ | ⟨_, _, _, t, _, h1⟩ | ⟨_, _, _, h1⟩
      | ⟨_, h1, _⟩ | ⟨_, h1, _⟩ <;> rw [h1] <;> exact ⟨rfl, rfl, rfl⟩
  refine ⟨key.1, key.2.1, key.2.2, ?_⟩
  unfold scheduler_tp_freedom__looks_valid at hv ⊢
  rw [key.1]
  exact hv

/-- A returning sequence of calls leaves the marker and the configuration as they were. -/
theorem run_yields_keeps_config :
    ∀ (calls : List yield_call) (st stN : implDetails_t),
      scheduler_tp_freedom__looks_valid st = true → run_yields st calls = some stN →
      stN.magic = st.magic ∧ stN.args = st.args
        ∧ scheduler_tp_freedom__looks_valid stN = true := by
  intro calls
  induction calls with
  | nil =>
    intro st stN hv h
    simp only [run_yields, Option.some.injEq] at h
    rw [← h]
    exact ⟨rfl, rfl, hv⟩
  | cons c cs ih =>
    intro st stN _ h
    unfold run_yields at h
    cases hy : scheduler_tp_freedom_thread_yield c.env st c.point c.pointDetails with
    | none => rw [hy] at h; simp at h
    | some r =>
      obtain ⟨st1, pd1⟩ := r
      rw [hy] at h
      simp only at h
      have h1 := thread_yield_keeps_config c.env st st1 c.point c.pointDetails pd1 hy
      have h2 := ih st1 stN h1.2.2.2 h
      exact ⟨h2.1.trans h1.1, h2.2.1.trans h1.2.2.1, h2.2.2⟩

/-! ## Empty queues -/

/-- C14. Empty queue is rejected by index selection: in a valid state the getting-work and
the getting-done points abort on a queue of length `0` (and on a null queue), so no index is
written; on a queue of length at least `1`, with `tp_degrees_of_freedom` equal to `-1` or at
least `1`, they return with the index drawn below `MIN(wq_len, deg_freedom)` written. -/
theorem C14_empty_queue_rejected (env : Env) (st : implDetails_t) (q : List Nat) (ix0 : Int)
    (hv : scheduler_tp_freedom__looks_valid st = true) :
    (q.length = 0 →
      scheduler_tp_freedom_thread_yield env st SCHEDULE_POINT_TP_GETTING_WORK
          (.getting_work ⟨some q, ix0⟩) = none
      ∧ scheduler_tp_freedom_thread_yield env st SCHEDULE_POINT_LOOPER_GETTING_DONE
          (.getting_done ⟨some q, ix0⟩) = none)
    ∧ (scheduler_tp_freedom_thread_yield env st SCHEDULE_POINT_TP_GETTING_WORK
          (.getting_work ⟨none, ix0⟩) = none
      ∧ scheduler_tp_freedom_thread_yield env st SCHEDULE_POINT_LOOPER_GETTING_DONE
          (.getting_done ⟨none, ix0⟩) = none)
    ∧ (1 ≤ q.length →
      (st.args.tp_degrees_of_freedom = -1 ∨ 1 ≤ st.args.tp_degrees_of_freedom) →
      scheduler_tp_freedom_thread_yield env st SCHEDULE_POINT_TP_GETTING_WORK
          (.getting_work ⟨some q, ix0⟩)
        = some (st, .getting_work ⟨some q, env.rand_int 0 (MIN q.length
            (if st.args.tp_degrees_of_freedom = -1 then (q.length : Int)
              else st.args.tp_degrees_of_freedom))⟩)
      ∧ scheduler_tp_freedom_thread_yield env st SCHEDULE_POINT_LOOPER_GETTING_DONE
          (.getting_done ⟨some q, ix0⟩)
        = some (st, .getting_done ⟨some q, env.rand_int 0 (MIN q.length
            (if st.args.tp_degrees_of_freedom = -1 then (q.length : Int)
              else st.args.tp_degrees_of_freedom))⟩)) := by
  refine ⟨fun h0 => ?_, ?_, fun hL _ => ?_⟩
  · have hidx : thread_yield_choose_index env st (some q) = none := by
      unfold thread_yield_choose_index scheduler_tp_freedom__queue_len
      simp [h0]
    constructor <;>
    · unfold scheduler_tp_freedom_thread_yield
      simp only [hv, schedule_point_looks_valid, not_true_eq_false, if_false]
      rw [hidx]
  · have hidx : thread_yield_choose_index env st none = none := rfl
    constructor <;>
    · unfold scheduler_tp_freedom_thread_yield
      simp only [hv, schedule_point_looks_valid, not_true_eq_false, if_false]
      rw [hidx]
  · constructor <;>
    · unfold scheduler_tp_freedom_thread_yield
      simp only [hv, schedule_point_looks_valid, not_true_eq_false, if_false]
      rw [thread_yield_choose_index_eq env st q hL]

/-- Under the scenario's state the empty queue aborts the getting-work point, and a queue of
three items returns with the drawn index `1`. -/
theorem C14_empty_queue_rejected_witness :
    scheduler_tp_freedom_thread_yield (scenario_env ⟨10, 0⟩ 1) scenario_state
        SCHEDULE_POINT_TP_GETTING_WORK (.getting_work ⟨some [], 0⟩) = none
    ∧ scheduler_tp_freedom_thread_yield (scenario_env ⟨10, 0⟩ 1) scenario_state
        SCHEDULE_POINT_TP_GETTING_WORK (.getting_work ⟨some [4, 5, 6], 0⟩)
      = some (scenario_state, .getting_work ⟨some [4, 5, 6],
          (scenario_env ⟨10, 0⟩ 1).rand_int 0 (MIN (([4, 5, 6] : List Nat).length : Int)
            (if scenario_state.args.tp_degrees_of_freedom = -1
              then (([4, 5, 6] : List Nat).length : Int)
              else scenario_state.args.tp_degrees_of_freedom))⟩) :=
  ⟨((C14_empty_queue_rejected (scenario_env ⟨10, 0⟩ 1) scenario_state [] 0 (by decide)).1
      rfl).1,
    ((C14_empty_queue_rejected (scenario_env ⟨10, 0⟩ 1) scenario_state [4, 5, 6] 0
      (by decide)).2.2 (by decide) (by decide)).1⟩

/-! ## Termination queries -/

/-- C15. Termination queries report "unknown": in every valid state
`scheduler_tp_freedom_lcbns_remaining` and `scheduler_tp_freedom_schedule_has_diverged`
return `-1` and the state as it was; this is so in the state reached from a successful
initialisation by any sequence of decision-point calls that returned. -/
theorem C15_termination_queries_unknown (st : implDetails_t) :
    (scheduler_tp_freedom__looks_valid st = true →
      scheduler_tp_freedom_lcbns_remaining st = some (st, -1)
      ∧ scheduler_tp_freedom_schedule_has_diverged st = some (st, -1))
    ∧ (∀ tpSize atoi mode args schedulerImpl impl calls stN,
        scheduler_tp_freedom_init tpSize atoi mode args schedulerImpl = some (st, impl) →
        run_yields st calls = some stN →
        scheduler_tp_freedom_lcbns_remaining stN = some (stN, -1)
        ∧ scheduler_tp_freedom_schedule_has_diverged stN = some (stN, -1)) := by
  have hq : ∀ s : implDetails_t, scheduler_tp_freedom__looks_valid s = true →
      scheduler_tp_freedom_lcbns_remaining s = some (s, -1)
      ∧ scheduler_tp_freedom_schedule_has_diverged s = some (s, -1) := by
    intro s hs
    unfold scheduler_tp_freedom_lcbns_remaining scheduler_tp_freedom_schedule_has_diverged
    simp [hs]
  refine ⟨hq st, ?_⟩
  intro tpSize atoi mode args schedulerImpl impl calls stN hinit hrun
  obtain ⟨a, t, s, _, _, _, _, _, _, hst, _⟩ :=
    (scheduler_tp_freedom_init_eq_some_iff tpSize atoi mode args schedulerImpl st impl).1 hinit
  have hv : scheduler_tp_freedom__looks_valid st = true := by rw [hst]; rfl
  exact hq stN (run_yields_keeps_config calls st stN hv hrun).2.2

/-- After a before-epoll call and a wants-work call from the scenario's state, both queries
return `-1`. -/
theorem C15_termination_queries_unknown_witness :
    scheduler_tp_freedom_lcbns_remaining scenario_state = some (scenario_state, -1)
    ∧ scheduler_tp_freedom_schedule_has_diverged
        (scenario_state_in_epoll ⟨10, 0⟩)
      = some (scenario_state_in_epoll ⟨10, 0⟩, -1) :=
  ⟨((C15_termination_queries_unknown scenario_state).1 (by decide)).1,
    ((C15_termination_queries_unknown scenario_state).2 (some "1")
      (fun s => if s = "1" then 1 else 0) 0 (some scenario_args) (some populated_schedulerImpl)
      populated_schedulerImpl
      [⟨scenario_env ⟨10, 0⟩ 0, SCHEDULE_POINT_LOOPER_BEFORE_EPOLL, .before_epoll⟩,
        ⟨scenario_env ⟨11, 0⟩ 0, SCHEDULE_POINT_TP_WANTS_WORK,
          .wants_work ⟨some [1], ⟨10, 0⟩, 0⟩⟩]
      (scenario_state_in_epoll ⟨10, 0⟩) (by decide) (by decide)).2⟩

/-! ## The epoll flag -/

/-- Running a sequence of calls in two parts. -/
theorem run_yields_append :
    ∀ (p s : List yield_call) (st : implDetails_t),
      run_yields st (p ++ s) = (run_yields st p).bind (fun st1 => run_yields st1 s) := by
  intro p
  induction p with
  | nil => intro s st; rfl
  | cons c cs ih =>
    intro s st
    simp only [List.cons_append, run_yields]
    cases scheduler_tp_freedom_thread_yield c.env st c.point c.pointDetails with
    | none => rfl
    | some r => exact ih s r.1

/-- Along a returning sequence of calls the epoll-boundary calls alternate, the first being
the one the flag of the starting state allows, and the flag at the end is the last mark. -/
theorem run_yields_epoll :
    ∀ (calls : List yield_call) (st stN : implDetails_t), run_yields st calls = some stN →
      alternating (decide (st.looper_in_epoll = 0)) (epoll_marks calls) = true
      ∧ decide (stN.looper_in_epoll ≠ 0)
          = last_mark (decide (st.looper_in_epoll ≠ 0)) (epoll_marks calls) := by
  intro calls
  induction calls with
  | nil =>
    intro st stN h
    simp only [run_yields, Option.some.injEq] at h
    rw [← h]
    exact ⟨rfl, rfl⟩
  | cons c cs ih =>
    intro st stN h
    unfold run_yields at h
    cases hy : scheduler_tp_freedom_thread_yield c.env st c.point c.pointDetails with
    | none => rw [hy] at h; simp at h
    | some r =>
      obtain ⟨st1, pd1⟩ := r
      rw [hy] at h
      simp only at h
      have hih := ih st1 stN h
      obtain ⟨_, hc⟩ := thread_yield_cases c.env st st1 c.point c.pointDetails pd1 hy
      rcases hc with ⟨hp, h1, _⟩ | ⟨hp, h1, _⟩ | ⟨hp, h1, _⟩ | ⟨hp, _, h0, t, _, h1⟩
        | ⟨hp, _, h0, h1⟩ | ⟨hp, h1, _⟩ | ⟨hp, h1, _⟩
      · rw [h1] at hih; unfold epoll_marks; rw [hp]; exact hih
      · rw [h1] at hih; unfold epoll_marks; rw [hp]; exact hih
      · rw [h1] at hih; unfold epoll_marks; rw [hp]; exact hih
      · rw [h1] at hih
        unfold epoll_marks
        rw [hp]
        simp only [alternating, last_mark, h0, decide_True, beq_self_eq_true, Bool.true_and,
          Bool.not_true]
        exact hih
      · rw [h1] at hih
        unfold epoll_marks
        rw [hp]
        simp only [alternating, last_mark, h0, decide_False, beq_self_eq_true, Bool.true_and,
          Bool.not_false]
        exact hih
      · rw [h1] at hih; unfold epoll_marks; rw [hp]; exact hih
      · rw [h1] at hih; unfold epoll_marks; rw [hp]; exact hih

/-- C16. Epoll flag state machine: from the state a successful initialisation leaves, along
every sequence of decision-point calls that all return, the before-epoll and after-epoll
calls alternate beginning with before-epoll; after each prefix of the sequence
`looper_in_epoll` is set exactly when the most recent epoll-boundary call was before-epoll
(clear when there was none); a before-epoll call sets `looper_epoll_start_time` to the clock
reading of that call, and an after-epoll call leaves it as it was. -/
theorem C16_epoll_flag_state_machine (tpSize : Option String) (atoi : String → Int)
    (mode : Int) (args : Option scheduler_tp_freedom_args_t)
    (schedulerImpl : Option schedulerImpl_t) (st0 : implDetails_t) (impl : schedulerImpl_t)
    (p s : List yield_call) (stN : implDetails_t)
    (hinit : scheduler_tp_freedom_init tpSize atoi mode args schedulerImpl = some (st0, impl))
    (hrun : run_yields st0 (p ++ s) = some stN) :
    st0.looper_in_epoll = 0
    ∧ alternating true (epoll_marks (p ++ s)) = true
    ∧ (∃ stp, run_yields st0 p = some stp
        ∧ (stp.looper_in_epoll ≠ 0 ↔ last_mark false (epoll_marks p) = true))
    ∧ (∀ env st st1 pd pd1,
        scheduler_tp_freedom_thread_yield env st SCHEDULE_POINT_LOOPER_BEFORE_EPOLL pd
          = some (st1, pd1) →
        st.looper_in_epoll = 0 ∧ st1.looper_in_epoll = 1
          ∧ env.clock_gettime = some st1.looper_epoll_start_time)
    ∧ (∀ env st st1 pd pd1,
        scheduler_tp_freedom_thread_yield env st SCHEDULE_POINT_LOOPER_AFTER_EPOLL pd
          = some (st1, pd1) →
        st.looper_in_epoll ≠ 0 ∧ st1.looper_in_epoll = 0
          ∧ st1.looper_epoll_start_time = st.looper_epoll_start_time) := by
  obtain ⟨a, t, s0, _, _, _, _, _, _, hst, _⟩ :=
    (scheduler_tp_freedom_init_eq_some_iff tpSize atoi mode args schedulerImpl st0 impl).1 hinit
  have h0 : st0.looper_in_epoll = 0 := by rw [hst]
  refine ⟨h0, ?_, ?_, ?_, ?_⟩
  · have := (run_yields_epoll (p ++ s) st0 stN hrun).1
    rwa [h0] at this
  · rw [run_yields_append] at hrun
    cases hp : run_yields st0 p with
    | none => rw [hp] at hrun; simp at hrun
    | some stp =>
      refine ⟨stp, rfl, ?_⟩
      have := (run_yields_epoll p st0 stp hp).2
      rw [h0] at this
      simp only [ne_eq, not_true_eq_false, decide_False] at this
      rw [← this]
      simp
  · intro env st st1 pd pd1 h
    obtain ⟨_, hc⟩ := thread_yield_cases env st st1 _ pd pd1 h
    rcases hc with ⟨hp, _⟩ | ⟨hp, _⟩ | ⟨hp, _⟩ | ⟨_, _, hz, t, hclk, h1⟩ | ⟨hp, _⟩ | ⟨hp, _⟩
      | ⟨hp, _⟩
    any_goals exact absurd hp (by decide)
    rw [h1]
    exact ⟨hz, rfl, hclk⟩
  · intro env st st1 pd pd1 h
    obtain ⟨_, hc⟩ := thread_yield_cases env st st1 _ pd pd1 h
    rcases hc with ⟨hp, _⟩ | ⟨hp, _⟩ | ⟨hp, _⟩ | ⟨hp, _⟩ | ⟨_, _, hz, h1⟩ | ⟨hp, _⟩
      | ⟨hp, _⟩
    any_goals exact absurd hp (by decide)
    rw [h1]
    exact ⟨hz, rfl, rfl⟩

/-- From the scenario's initialisation: before-epoll at 10 s, a wants-work call, after-epoll,
then before-epoll at 12 s. -/
theorem C16_epoll_flag_state_machine_witness :
    scenario_state.looper_in_epoll = 0
    ∧ alternating true (epoll_marks
        ([⟨scenario_env ⟨10, 0⟩ 0, SCHEDULE_POINT_LOOPER_BEFORE_EPOLL, .before_epoll⟩,
          ⟨scenario_env ⟨11, 0⟩ 0, SCHEDULE_POINT_TP_WANTS_WORK,
            .wants_work ⟨some [1], ⟨10, 0⟩, 0⟩⟩,
          ⟨scenario_env ⟨11, 0⟩ 0, SCHEDULE_POINT_LOOPER_AFTER_EPOLL, .after_epoll⟩]
        ++ [⟨scenario_env ⟨12, 0⟩ 0, SCHEDULE_POINT_LOOPER_BEFORE_EPOLL, .before_epoll⟩])) = true
    ∧ (∃ stp, run_yields scenario_state
          [⟨scenario_env ⟨10, 0⟩ 0, SCHEDULE_POINT_LOOPER_BEFORE_EPOLL, .before_epoll⟩,
            ⟨scenario_env ⟨11, 0⟩ 0, SCHEDULE_POINT_TP_WANTS_WORK,
              .wants_work ⟨some [1], ⟨10, 0⟩, 0⟩⟩,
            ⟨scenario_env ⟨11, 0⟩ 0, SCHEDULE_POINT_LOOPER_AFTER_EPOLL, .after_epoll⟩]
          = some stp
        ∧ (stp.looper_in_epoll ≠ 0 ↔ last_mark false (epoll_marks
          [⟨scenario_env ⟨10, 0⟩ 0, SCHEDULE_POINT_LOOPER_BEFORE_EPOLL, .before_epoll⟩,
            ⟨scenario_env ⟨11, 0⟩ 0, SCHEDULE_POINT_TP_WANTS_WORK,
              .wants_work ⟨some [1], ⟨10, 0⟩, 0⟩⟩,
            ⟨scenario_env ⟨11, 0⟩ 0, SCHEDULE_POINT_LOOPER_AFTER_EPOLL, .after_epoll⟩])
          = true)) :=
  have h := C16_epoll_flag_state_machine (some "1") (fun s => if s = "1" then 1 else 0) 0
    (some scenario_args) (some populated_schedulerImpl) scenario_state populated_schedulerImpl
    [⟨scenario_env ⟨10, 0⟩ 0, SCHEDULE_POINT_LOOPER_BEFORE_EPOLL, .before_epoll⟩,
      ⟨scenario_env ⟨11, 0⟩ 0, SCHEDULE_POINT_TP_WANTS_WORK,
        .wants_work ⟨some [1], ⟨10, 0⟩, 0⟩⟩,
      ⟨scenario_env ⟨11, 0⟩ 0, SCHEDULE_POINT_LOOPER_AFTER_EPOLL, .after_epoll⟩]
    [⟨scenario_env ⟨12, 0⟩ 0, SCHEDULE_POINT_LOOPER_BEFORE_EPOLL, .before_epoll⟩]
    (scenario_state_in_epoll ⟨12, 0⟩) (by decide) (by decide)
  ⟨h.1, h.2.1, h.2.2.1⟩

/-! ## State frame -/

/-- C17. State frame: a decision-point call that returns leaves the stored configuration and
the validity marker as they were, and so does every returning sequence of calls; the
wants-work, getting-work, getting-done and before-handling-events points leave the whole
state as it was; in the payload the wants-work point keeps `wq` and `start_time`, the
index points keep `wq`, the before-handling-events point keeps `nevents`, and the other
points keep the payload. -/
theorem C17_state_frame (env : Env) (st st1 : implDetails_t) (point : schedule_point_t)
    (pd pd1 : pointDetails_t)
    (h : scheduler_tp_freedom_thread_yield env st point pd = some (st1, pd1)) :
    st1.args = st.args ∧ st1.magic = st.magic
    ∧ (∀ calls stN, run_yields st calls = some stN →
        stN.args = st.args ∧ stN.magic = st.magic)
    ∧ (point = SCHEDULE_POINT_TP_WANTS_WORK ∨ point = SCHEDULE_POINT_TP_GETTING_WORK
        ∨ point = SCHEDULE_POINT_LOOPER_GETTING_DONE
        ∨ point = SCHEDULE_POINT_LOOPER_IOPOLL_BEFORE_HANDLING_EVENTS → st1 = st)
    ∧ (∀ d, pd = .wants_work d →
        ∃ d1, pd1 = .wants_work d1 ∧ d1.wq = d.wq ∧ d1.start_time = d.start_time)
    ∧ (∀ d, pd = .getting_work d → ∃ ix, pd1 = .getting_work ⟨d.wq, ix⟩)
    ∧ (∀ d, pd = .getting_done d → ∃ ix, pd1 = .getting_done ⟨d.wq, ix⟩)
    ∧ (∀ d, pd = .iopoll_before_handling_events d →
        ∃ d1, pd1 = .iopoll_before_handling_events d1 ∧ d1.nevents = d.nevents)
    ∧ (point = SCHEDULE_POINT_LOOPER_BEFORE_EPOLL ∨ point = SCHEDULE_POINT_LOOPER_AFTER_EPOLL
        ∨ point = SCHEDULE_POINT_OTHER → pd1 = pd) := by
  have hk := thread_yield_keeps_config env st st1 point pd pd1 h
  obtain ⟨hv, hc⟩ := thread_yield_cases env st st1 point pd pd1 h
  refine ⟨hk.2.2.1, hk.1, ?_, ?_, ?_, ?_, ?_, ?_, ?_⟩
  · intro calls stN hrun
    have := run_yields_keeps_config calls st stN hv hrun
    exact ⟨this.2.1, this.1⟩
  · intro hp
    rcases hc with ⟨_, h1, _⟩ | ⟨_, h1, _⟩ | ⟨_, h1, _⟩ | ⟨hq, _⟩ | ⟨hq, _⟩ | ⟨_, h1, _⟩
      | ⟨_, h1, _⟩
    all_goals first
      | exact h1
      | (rw [hq] at hp; exact absurd hp (by decide))
  · intro d hd
    rcases hc with ⟨_, _, d0, d1, h2, h3, h4⟩ | ⟨_, _, d0, _, h2, _⟩ | ⟨_, _, d0, _, h2, _⟩
      | ⟨hq, _⟩ | ⟨hq, _⟩ | ⟨_, _, d0, _, h2, _⟩ | ⟨hq, _, _⟩
    · rw [hd] at h2
      cases h2
      exact ⟨d1, h3, thread_yield_wants_work_frame env st d d1 h4⟩
    all_goals first
      | (rw [hd] at h2; cases h2)
      | (rw [hq, hd] at h
         simp [scheduler_tp_freedom_thread_yield, schedule_point_looks_valid] at h)
  · intro d hd
    rcases hc with ⟨_, _, d0, _, h2, _⟩ | ⟨_, _, d0, ix, h2, h3, _⟩ | ⟨_, _, d0, _, h2, _⟩
      | ⟨hq, _⟩ | ⟨hq, _⟩ | ⟨_, _, d0, _, h2, _⟩ | ⟨hq, _, _⟩
    · rw [hd] at h2; cases h2
    · rw [hd] at h2
      cases h2
      exact ⟨ix, h3⟩
    all_goals first
      | (rw [hd] at h2; cases h2)
      | (rw [hq, hd] at h
         simp [scheduler_tp_freedom_thread_yield, schedule_point_looks_valid] at h)
  · intro d hd
    rcases hc with ⟨_, _, d0, _, h2, _⟩ | ⟨_, _, d0, _, h2, _⟩ | ⟨_, _, d0, ix, h2, h3, _⟩
      | ⟨hq, _⟩ | ⟨hq, _⟩ | ⟨_, _, d0, _, h2, _⟩ | ⟨hq, _, _⟩
    · rw [hd] at h2; cases h2
    · rw [hd] at h2; cases h2
    · rw [hd] at h2
      cases h2
      exact ⟨ix, h3⟩
    all_goals first
      | (rw [hd] at h2; cases h2)
      | (rw [hq, hd] at h
         simp [scheduler_tp_freedom_thread_yield, schedule_point_looks_valid] at h)
  · intro d hd
    rcases hc with ⟨_, _, d0, _, h2, _⟩ | ⟨_, _, d0, _, h2, _⟩ | ⟨_, _, d0, _, h2, _⟩
      | ⟨hq, _⟩ | ⟨hq, _⟩ | ⟨_, _, d0, d1, h2, h3, h4⟩ | ⟨hq, _, _⟩
    · rw [hd] at h2; cases h2
    · rw [hd] at h2; cases h2
    · rw [hd] at h2; cases h2
    · rw [hq, hd] at h
      simp [scheduler_tp_freedom_thread_yield, schedule_point_looks_valid] at h
    · rw [hq, hd] at h
      simp [scheduler_tp_freedom_thread_yield, schedule_point_looks_valid] at h
    · rw [hd] at h2
      cases h2
      exact ⟨d1, h3, h4⟩
    · rw [hq, hd] at h
      simp [scheduler_tp_freedom_thread_yield, schedule_point_looks_valid] at h
  · intro hp
    rcases hc with ⟨hq, _⟩ | ⟨hq, _⟩ | ⟨hq, _⟩ | ⟨_, h1, _⟩ | ⟨_, h1, _⟩ | ⟨hq, _⟩
      | ⟨_, _, h1⟩
    all_goals first
      | exact h1
      | (rw [hq] at hp; exact absurd hp (by decide))

/-- A wants-work call under the scenario's state that permits by rule 1: the state, the
queue and the start time are as they were. -/
theorem C17_state_frame_witness :
    scenario_state.args = scenario_state.args ∧ scenario_state.magic = scenario_state.magic
    ∧ (SCHEDULE_POINT_TP_WANTS_WORK = SCHEDULE_POINT_TP_WANTS_WORK
        ∨ SCHEDULE_POINT_TP_WANTS_WORK = SCHEDULE_POINT_TP_GETTING_WORK
        ∨ SCHEDULE_POINT_TP_WANTS_WORK = SCHEDULE_POINT_LOOPER_GETTING_DONE
        ∨ SCHEDULE_POINT_TP_WANTS_WORK = SCHEDULE_POINT_LOOPER_IOPOLL_BEFORE_HANDLING_EVENTS →
        scenario_state = scenario_state)
    ∧ (∀ d, pointDetails_t.wants_work ⟨some [1, 2], ⟨10, 0⟩, 0⟩ = .wants_work d →
        ∃ d1, pointDetails_t.wants_work ⟨some [1, 2], ⟨10, 0⟩, 1⟩ = .wants_work d1
          ∧ d1.wq = d.wq ∧ d1.start_time = d.start_time) :=
  have h := C17_state_frame (scenario_env ⟨10, 0⟩ 0) scenario_state scenario_state
    SCHEDULE_POINT_TP_WANTS_WORK (.wants_work ⟨some [1, 2], ⟨10, 0⟩, 0⟩)
    (.wants_work ⟨some [1, 2], ⟨10, 0⟩, 1⟩) (by decide)
  ⟨h.1, h.2.1, h.2.2.2.1, h.2.2.2.2.1⟩

/-! ## Clamping of the durations -/

/-- C18. Negative elapsed time is clamped to zero: at the wants-work point, with well-formed
timespecs, the decision is taken from `wait_diff_us` and `looper_epoll_diff_us`; when the
clock reading is not after `start_time`, `wait_diff_us` is `0`; when `looper_in_epoll` is set
and the clock reading is not after `looper_epoll_start_time`, `looper_epoll_diff_us` is `0`;
neither duration is ever negative; and in those situations rule 2 fires exactly when
`tp_max_delay_us` is `0` and rule 3 exactly when `tp_epoll_threshold` is `0`. -/
theorem C18_negative_elapsed_clamped (env : Env) (st : implDetails_t) (d : spd_wants_work_t)
    (q : List Nat) (now : timespec)
    (hv : scheduler_tp_freedom__looks_valid st = true)
    (hq : d.wq = some q) (hclk : env.clock_gettime = some now)
    (hnow : timespec_wf now) (hstart : timespec_wf d.start_time)
    (hepoll : timespec_wf st.looper_epoll_start_time) :
    scheduler_tp_freedom_thread_yield env st SCHEDULE_POINT_TP_WANTS_WORK (.wants_work d)
      = some (st, .wants_work
          (if (0 < st.args.tp_degrees_of_freedom
                ∧ st.args.tp_degrees_of_freedom ≤ (q.length : Int))
              ∨ (st.args.tp_max_delay_us : Int) ≤ wants_work_wait_diff_us now d.start_time
              ∨ (st.looper_in_epoll ≠ 0 ∧
                  (st.args.tp_epoll_threshold : Int) ≤ wants_work_looper_epoll_diff_us st now)
            then { d with should_get_work := 1 } else d))
    ∧ (timespec_ns now ≤ timespec_ns d.start_time →
        wants_work_wait_diff_us now d.start_time = 0)
    ∧ (st.looper_in_epoll ≠ 0 → timespec_ns now ≤ timespec_ns st.looper_epoll_start_time →
        wants_work_looper_epoll_diff_us st now = 0)
    ∧ 0 ≤ wants_work_wait_diff_us now d.start_time
    ∧ 0 ≤ wants_work_looper_epoll_diff_us st now
    ∧ (timespec_ns now ≤ timespec_ns d.start_time →
        ((st.args.tp_max_delay_us : Int) ≤ wants_work_wait_diff_us now d.start_time
          ↔ st.args.tp_max_delay_us = 0))
    ∧ (st.looper_in_epoll ≠ 0 → timespec_ns now ≤ timespec_ns st.looper_epoll_start_time →
        ((st.args.tp_epoll_threshold : Int) ≤ wants_work_looper_epoll_diff_us st now
          ↔ st.args.tp_epoll_threshold = 0)) := by
  have hW : wants_work_wait_diff_us now d.start_time = max 0 (elapsed_us now d.start_time) :=
    clamped_diff_eq now d.start_time hnow hstart
  have hE : wants_work_looper_epoll_diff_us st now =
      if st.looper_in_epoll ≠ 0 then max 0 (elapsed_us now st.looper_epoll_start_time)
      else 0 := by
    unfold wants_work_looper_epoll_diff_us
    rw [clamped_diff_eq now st.looper_epoll_start_time hnow hepoll]
  have hneg : ∀ s : timespec, timespec_ns now ≤ timespec_ns s → elapsed_us now s ≤ 0 := by
    intro s hs
    unfold elapsed_us
    omega
  refine ⟨?_, ?_, ?_, ?_, ?_, ?_, ?_⟩
  · rw [thread_yield_at_wants_work env st d hv,
      thread_yield_wants_work_eq env st d q now hq hclk]
    have hE1 : wants_work_looper_epoll_diff_us st now = if st.looper_in_epoll ≠ 0 then
        (if timespec_cmp now st.looper_epoll_start_time = 1 then
          timespec_us (timespec_sub now st.looper_epoll_start_time) else 0) else 0 := rfl
    unfold wants_work_wait_diff_us
    rw [hE1]
    by_cases h1 : 0 < st.args.tp_degrees_of_freedom
        ∧ st.args.tp_degrees_of_freedom ≤ (q.length : Int)
    · simp [h1]
    · by_cases h2 : (st.args.tp_max_delay_us : Int) ≤
          (if timespec_cmp now d.start_time = 1 then
            timespec_us (timespec_sub now d.start_time) else 0)
      · simp [h1, h2]
      · by_cases hl : st.looper_in_epoll = 0
        · simp [h1, h2, hl]
        · by_cases h3 : (st.args.tp_epoll_threshold : Int) ≤
              (if timespec_cmp now st.looper_epoll_start_time = 1 then
                timespec_us (timespec_sub now st.looper_epoll_start_time) else 0)
          · simp [h1, h2, hl, h3]
          · simp [h1, h2, hl, h3]
  · intro h
    have := hneg _ h
    omega
  · intro hl h
    rw [hE, if_pos hl]
    have := hneg _ h
    omega
  · omega
  · rw [hE]
    split_ifs <;> omega
  · intro h
    have := hneg _ h
    omega
  · intro hl h
    rw [hE, if_pos hl]
    have := hneg _ h
    omega

/-- The clock reads 9 s while the wait began at 10 s and the looper entered epoll at 10 s:
both durations are `0` and, the scenario's delays being positive, the payload is handed
back unchanged. -/
theorem C18_negative_elapsed_clamped_witness :
    scheduler_tp_freedom_thread_yield (scenario_env ⟨9, 0⟩ 0) (scenario_state_in_epoll ⟨10, 0⟩)
        SCHEDULE_POINT_TP_WANTS_WORK (.wants_work ⟨some [], ⟨10, 0⟩, 0⟩)
      = some (scenario_state_in_epoll ⟨10, 0⟩, .wants_work ⟨some [], ⟨10, 0⟩, 0⟩)
    ∧ wants_work_wait_diff_us ⟨9, 0⟩ ⟨10, 0⟩ = 0
    ∧ wants_work_looper_epoll_diff_us (scenario_state_in_epoll ⟨10, 0⟩) ⟨9, 0⟩ = 0 :=
  have h := C18_negative_elapsed_clamped (scenario_env ⟨9, 0⟩ 0)
    (scenario_state_in_epoll ⟨10, 0⟩) ⟨some [], ⟨10, 0⟩, 0⟩ [] ⟨9, 0⟩
    (by decide) rfl rfl (by decide) (by decide) (by decide)
  ⟨h.1.trans (by decide), h.2.1 (by decide), h.2.2.1 (by decide) (by decide)⟩

/-! ## The chunk plan -/

/-- The loop of the shuffle applies its calls of `random_shuffle` in order. -/
theorem shuffle_loop_eq_foldl (rs : Nat → List uv__epoll_event → List uv__epoll_event)
    (chunk_len n_chunks last_chunk_len : Int) :
    ∀ (todo i eventsP : Nat) (events : List uv__epoll_event),
      shuffle_loop rs chunk_len n_chunks last_chunk_len todo i eventsP events
        = (shuffle_calls chunk_len n_chunks last_chunk_len todo i eventsP).foldl
            (apply_shuffle_call rs) events := by
  intro todo
  induction todo with
  | zero => intro i eventsP events; rfl
  | succ todo ih =>
    intro i eventsP events
    unfold shuffle_loop shuffle_calls
    simp only [List.foldl_cons]
    exact ih _ _ _

/-- The calls of the loop from iteration `i` on, the cursor being at `i * c`: there are
`todo` of them, the `j`-th is at offset `(i + j) * c` with length `c`, or `last` for the
final chunk, and their lengths add up to what is left of the buffer. -/
theorem shuffle_calls_spec (c m last : Nat) :
    ∀ (todo i : Nat), i + todo = m →
      (shuffle_calls c m last todo i (i * c)).length = todo
      ∧ (∀ j, j < todo → (shuffle_calls c m last todo i (i * c))[j]? =
          some (i + j, (i + j) * c, if i + j + 1 < m then c else last))
      ∧ (0 < todo → ((shuffle_calls c m last todo i (i * c)).map (fun x => x.2.2)).sum + i * c
          = (m - 1) * c + last) := by
  intro todo
  induction todo with
  | zero =>
    intro i _
    exact ⟨rfl, fun j hj => absurd hj (Nat.not_lt_zero j), fun h => absurd h (Nat.lt_irrefl 0)⟩
  | succ todo ih =>
    intro i hi
    unfold shuffle_calls
    simp only
    by_cases hmid : i + 1 < m
    · have hc1 : (i : Int) < (m : Int) - 1 := by omega
      have h2 : i * c + c = (i + 1) * c := by ring
      rw [if_pos hc1]
      simp only [Int.toNat_ofNat, h2]
      obtain ⟨ih1, ih2, ih3⟩ := ih (i + 1) (by omega)
      refine ⟨by rw [List.length_cons, ih1], fun j hj => ?_, fun _ => ?_⟩
      · cases j with
        | zero =>
          simp only [List.getElem?_cons_zero, Nat.add_zero, if_pos hmid]
        | succ j =>
          rw [List.getElem?_cons_succ, ih2 j (by omega)]
          have e : i + 1 + j = i + (j + 1) := by omega
          rw [e]
      · simp only [List.map_cons, List.sum_cons]
        have := ih3 (by omega)
        omega
    · have hc1 : ¬ (i : Int) < (m : Int) - 1 := by omega
      have ht : todo = 0 := by omega
      subst ht
      rw [if_neg hc1]
      simp only [Int.toNat_ofNat]
      refine ⟨rfl, fun j hj => ?_, fun _ => ?_⟩
      · have hj0 : j = 0 := by omega
        subst hj0
        unfold shuffle_calls
        simp only [List.getElem?_cons_zero, Nat.add_zero, if_neg hmid]
      · unfold shuffle_calls
        have him : i = m - 1 := by omega
        simp only [List.map_cons, List.map_nil, List.sum_cons, List.sum_nil, Nat.add_zero]
        rw [him]
        omega

/-- C19. The chunk plan covers the buffer exactly: for `nitems ≥ 2` and a chunk length
`c ≥ 1` (`c = nitems` for `-1`), the chunking gives `n_chunks ≥ 1` and
`1 ≤ last_chunk_len ≤ c` with `(n_chunks - 1) * c + last_chunk_len = nitems`; the loop makes
`n_chunks` calls of `random_shuffle`, the `k`-th on the sub-buffer at offset `k * c` of length
`c`, or `last_chunk_len` for the last one; every call has length at least `1` and ends at or
before `nitems`; the lengths add up to `nitems`; and the shuffle is these calls applied in
order. -/
theorem C19_chunk_plan_covers_buffer (degrees_of_freedom nitems : Int) (hn : 2 ≤ nitems)
    (hd : degrees_of_freedom = -1 ∨ 1 ≤ degrees_of_freedom) :
    ∃ c m last : Nat,
      shuffle_chunking degrees_of_freedom nitems = some ((c : Int), (m : Int), (last : Int))
      ∧ (c : Int) = (if degrees_of_freedom = -1 then nitems else degrees_of_freedom)
      ∧ 1 ≤ m ∧ 1 ≤ last ∧ last ≤ c
      ∧ (((m : Int) - 1) * (c : Int) + (last : Int) = nitems)
      ∧ (shuffle_calls c m last m 0 0).length = m
      ∧ (∀ k, k < m → (shuffle_calls c m last m 0 0)[k]? =
          some (k, k * c, if k + 1 < m then c else last))
      ∧ (∀ call ∈ shuffle_calls c m last m 0 0,
          1 ≤ call.2.2 ∧ ((call.2.1 + call.2.2 : Nat) : Int) ≤ nitems)
      ∧ ((((shuffle_calls c m last m 0 0).map (fun x => x.2.2)).sum : Nat) : Int) = nitems
      ∧ (∀ (random_shuffle : Nat → List uv__epoll_event → List uv__epoll_event)
          (events : List uv__epoll_event),
          scheduler_tp_freedom__shuffle_events random_shuffle degrees_of_freedom events nitems
            = some ((shuffle_calls c m last m 0 0).foldl
                (apply_shuffle_call random_shuffle) events)) := by
  obtain ⟨n, hnn⟩ : ∃ n : Nat, (n : Int) = nitems := ⟨nitems.toNat, by omega⟩
  subst hnn
  obtain ⟨c, hcdef⟩ : ∃ c : Nat, c = (if degrees_of_freedom = -1 then n
      else degrees_of_freedom.toNat) := ⟨_, rfl⟩
  have hcw : (if degrees_of_freedom = -1 then (n : Int) else degrees_of_freedom) = (c : Int) := by
    rw [hcdef]; split_ifs <;> omega
  have hc1 : 1 ≤ c := by rw [hcdef]; split_ifs <;> omega
  have hdm := Nat.div_add_mod n c
  have hmlt := Nat.mod_lt n (show 0 < c by omega)
  obtain ⟨m, hmdef⟩ : ∃ m : Nat, m = (if n % c ≠ 0 then n / c + 1 else n / c) := ⟨_, rfl⟩
  obtain ⟨last, hlastdef⟩ : ∃ last : Nat, last = (if n % c = 0 then c else n % c) := ⟨_, rfl⟩
  have hmI : (if (n : Int) % (c : Int) ≠ 0 then (n : Int) / (c : Int) + 1
      else (n : Int) / (c : Int)) = (m : Int) := by
    rw [hmdef]; split_ifs with h1 h2 h2 <;> first | (push_cast; rfl) | (exfalso; omega)
  have hlastI : (if (n : Int) % (c : Int) = 0 then (c : Int) else (n : Int) % (c : Int))
      = (last : Int) := by
    rw [hlastdef]; split_ifs with h1 h2 h2 <;> first | (push_cast; rfl) | (exfalso; omega)
  have hq : n % c = 0 → 1 ≤ n / c := by
    intro h0
    rcases Nat.eq_zero_or_pos (n / c) with hz | hz
    · rw [hz, h0] at hdm; omega
    · exact hz
  have hm1 : 1 ≤ m := by
    rw [hmdef]
    split_ifs with h
    · exact Nat.le_add_left 1 _
    · exact hq (not_not.1 h)
  have hl1 : 1 ≤ last := by rw [hlastdef]; split_ifs <;> omega
  have hlc : last ≤ c := by rw [hlastdef]; split_ifs <;> omega
  have hlen : n = (m - 1) * c + last := by
    rw [hmdef, hlastdef]
    by_cases h0 : n % c = 0
    · have hq1 := hq h0
      rw [if_neg (by simpa using h0), if_pos h0]
      have : (n / c - 1) * c + c = c * (n / c) := by
        rw [Nat.sub_mul, Nat.one_mul, Nat.mul_comm c]
        have : c ≤ n / c * c := Nat.le_mul_of_pos_left c hq1
        omega
      omega
    · rw [if_pos h0, if_neg h0, Nat.add_sub_cancel, Nat.mul_comm]; omega
  have hchunk : shuffle_chunking degrees_of_freedom n = some ((c : Int), (m : Int), (last : Int)) := by
    rw [shuffle_chunking_eq degrees_of_freedom n (by omega) hd, hcw, hmI, hlastI]
  obtain ⟨hs1, hs2, hs3⟩ := shuffle_calls_spec c m last m 0 (Nat.zero_add m)
  simp only [Nat.zero_mul, Nat.zero_add, Nat.add_zero] at hs1 hs2 hs3
  have hsum := hs3 (by omega)
  refine ⟨c, m, last, hchunk, hcw.symm, hm1, hl1, hlc, ?_, hs1, hs2, ?_, ?_, ?_⟩
  · have : ((m - 1 : Nat) : Int) = (m : Int) - 1 := by omega
    rw [← this]
    exact_mod_cast hlen.symm
  · intro call hcall
    obtain ⟨k, hk, hget⟩ := List.getElem_of_mem hcall
    have hk1 : k < m := by rw [hs1] at hk; exact hk
    have h2 := hs2 k hk1
    rw [List.getElem?_eq_getElem hk, hget] at h2
    simp only [Option.some.injEq] at h2
    rw [h2]
    simp only
    have hkc : k * c ≤ (m - 1) * c := Nat.mul_le_mul_right c (by omega)
    by_cases hmid : k + 1 < m
    · rw [if_pos hmid]
      have h3 : (k + 1) * c ≤ (m - 1) * c := Nat.mul_le_mul_right c (by omega)
      have h4 : (k + 1) * c = k * c + c := by ring
      refine ⟨hc1, ?_⟩
      have : k * c + c ≤ n := by omega
      exact_mod_cast this
    · rw [if_neg hmid]
      refine ⟨hl1, ?_⟩
      have : k * c + last ≤ n := by omega
      exact_mod_cast this
  · have : ((shuffle_calls c m last m 0 0).map (fun x => x.2.2)).sum = n := by omega
    exact_mod_cast this
  · intro random_shuffle events
    unfold scheduler_tp_freedom__shuffle_events
    rw [if_neg (by omega), hchunk]
    simp only [Int.toNat_ofNat]
    rw [shuffle_loop_eq_foldl]

/-- Seven events in windows of three: the calls are at offsets 0, 3 and 6 with lengths 3, 3
and 1. -/
theorem C19_chunk_plan_covers_buffer_witness :
    ∃ c m last : Nat,
      shuffle_chunking 3 7 = some ((c : Int), (m : Int), (last : Int))
      ∧ (c : Int) = (if (3 : Int) = -1 then 7 else 3)
      ∧ 1 ≤ m ∧ 1 ≤ last ∧ last ≤ c
      ∧ (((m : Int) - 1) * (c : Int) + (last : Int) = 7)
      ∧ (shuffle_calls c m last m 0 0).length = m
      ∧ (∀ k, k < m → (shuffle_calls c m last m 0 0)[k]? =
          some (k, k * c, if k + 1 < m then c else last))
      ∧ (∀ call ∈ shuffle_calls c m last m 0 0,
          1 ≤ call.2.2 ∧ ((call.2.1 + call.2.2 : Nat) : Int) ≤ 7)
      ∧ ((((shuffle_calls c m last m 0 0).map (fun x => x.2.2)).sum : Nat) : Int) = 7
      ∧ (∀ (random_shuffle : Nat → List uv__epoll_event → List uv__epoll_event)
          (events : List uv__epoll_event),
          scheduler_tp_freedom__shuffle_events random_shuffle 3 events 7
            = some ((shuffle_calls c m last m 0 0).foldl
                (apply_shuffle_call random_shuffle) events)) :=
  C19_chunk_plan_covers_buffer 3 7 (by decide) (by decide)

/-! ## A bound at least as large as the collection -/

/-- The shuffle with a window at least as long as the `n ≥ 2` items is one call of
`random_shuffle` on the first `n` items. -/
theorem shuffle_events_large_window
    (random_shuffle : Nat → List uv__epoll_event → List uv__epoll_event)
    (events : List uv__epoll_event) (n w : Int) (hn : 2 ≤ n) (hw : n ≤ w) :
    scheduler_tp_freedom__shuffle_events random_shuffle w events n
      = some (random_shuffle 0 (events.take n.toNat) ++ events.drop n.toNat) := by
  unfold scheduler_tp_freedom__shuffle_events
  rw [if_neg (by omega), shuffle_chunking_eq w n (by omega) (Or.inr (by omega))]
  rw [if_neg (show ¬ w = -1 by omega)]
  rcases lt_or_eq_of_le hw with hlt | heq
  · have h1 : n % w = n := Int.emod_eq_of_lt (by omega) hlt
    have h2 : n / w = 0 := Int.ediv_eq_zero_of_lt (by omega) hlt
    rw [h1, h2, if_pos (show n ≠ 0 by omega), if_neg (show ¬ n = 0 by omega)]
    simp [shuffle_loop]
  · subst heq
    rw [Int.emod_self, Int.ediv_self (by omega)]
    simp [shuffle_loop]

/-- The shuffle of `n ≥ 2` items with `-1` degrees of freedom is one call of
`random_shuffle` on the first `n` items. -/
theorem shuffle_events_unbounded
    (random_shuffle : Nat → List uv__epoll_event → List uv__epoll_event)
    (events : List uv__epoll_event) (n : Int) (hn : 2 ≤ n) :
    scheduler_tp_freedom__shuffle_events random_shuffle (-1) events n
      = some (random_shuffle 0 (events.take n.toNat) ++ events.drop n.toNat) := by
  unfold scheduler_tp_freedom__shuffle_events
  rw [if_neg (by omega), shuffle_chunking_eq (-1) n (by omega) (Or.inl rfl)]
  simp only [if_true]
  rw [Int.emod_self, Int.ediv_self (by omega)]
  simp [shuffle_loop]

/-- C20. A bound at least as large as the collection is equivalent to unbounded: on a queue
of length `L ≥ 1`, the getting-work and getting-done points with
`tp_degrees_of_freedom = d ≥ L` and with `tp_degrees_of_freedom = -1` both write the index
`rand_int(L)`; and on `n ≥ 2` events `scheduler_tp_freedom__shuffle_events` with
`degrees_of_freedom = w ≥ n` and with `degrees_of_freedom = -1` both make the one call of
`random_shuffle` on the `n` events. -/
theorem C20_large_bound_is_unbounded (env : Env) (st : implDetails_t) (q : List Nat)
    (ix0 d : Int) (events : List uv__epoll_event) (n w : Int)
    (hv : scheduler_tp_freedom__looks_valid st = true)
    (hL : 1 ≤ q.length) (hd : (q.length : Int) ≤ d) (hn : 2 ≤ n) (hw : n ≤ w) :
    scheduler_tp_freedom_thread_yield env (with_tp_degrees_of_freedom st d)
        SCHEDULE_POINT_TP_GETTING_WORK (.getting_work ⟨some q, ix0⟩)
      = some (with_tp_degrees_of_freedom st d,
          .getting_work ⟨some q, env.rand_int 0 q.length⟩)
    ∧ scheduler_tp_freedom_thread_yield env (with_tp_degrees_of_freedom st (-1))
        SCHEDULE_POINT_TP_GETTING_WORK (.getting_work ⟨some q, ix0⟩)
      = some (with_tp_degrees_of_freedom st (-1),
          .getting_work ⟨some q, env.rand_int 0 q.length⟩)
    ∧ scheduler_tp_freedom_thread_yield env (with_tp_degrees_of_freedom st d)
        SCHEDULE_POINT_LOOPER_GETTING_DONE (.getting_done ⟨some q, ix0⟩)
      = some (with_tp_degrees_of_freedom st d,
          .getting_done ⟨some q, env.rand_int 0 q.length⟩)
    ∧ scheduler_tp_freedom_thread_yield env (with_tp_degrees_of_freedom st (-1))
        SCHEDULE_POINT_LOOPER_GETTING_DONE (.getting_done ⟨some q, ix0⟩)
      = some (with_tp_degrees_of_freedom st (-1),
          .getting_done ⟨some q, env.rand_int 0 q.length⟩)
    ∧ scheduler_tp_freedom__shuffle_events env.random_shuffle w events n
      = some (env.random_shuffle 0 (events.take n.toNat) ++ events.drop n.toNat)
    ∧ scheduler_tp_freedom__shuffle_events env.random_shuffle (-1) events n
      = some (env.random_shuffle 0 (events.take n.toNat) ++ events.drop n.toNat) := by
  have hvd : ∀ x, scheduler_tp_freedom__looks_valid (with_tp_degrees_of_freedom st x) = true :=
    fun _ => hv
  have hidx : ∀ x : Int, (x = -1 ∨ (q.length : Int) ≤ x) →
      thread_yield_choose_index env (with_tp_degrees_of_freedom st x) (some q)
        = some (env.rand_int 0 q.length) := by
    intro x hx
    rw [thread_yield_choose_index_eq env _ q hL]
    have : MIN (q.length : Int)
        (if (with_tp_degrees_of_freedom st x).args.tp_degrees_of_freedom = -1
          then (q.length : Int)
          else (with_tp_degrees_of_freedom st x).args.tp_degrees_of_freedom)
        = (q.length : Int) := by
      show MIN (q.length : Int) (if x = -1 then (q.length : Int) else x) = (q.length : Int)
      unfold MIN
      split_ifs <;> omega
    rw [this]
  refine ⟨?_, ?_, ?_, ?_, shuffle_events_large_window env.random_shuffle events n w hn hw,
    shuffle_events_unbounded env.random_shuffle events n hn⟩
  · unfold scheduler_tp_freedom_thread_yield
    simp only [hvd, schedule_point_looks_valid, not_true_eq_false, if_false]
    rw [hidx d (Or.inr hd)]
  · unfold scheduler_tp_freedom_thread_yield
    simp only [hvd, schedule_point_looks_valid, not_true_eq_false, if_false]
    rw [hidx (-1) (Or.inl rfl)]
  · unfold scheduler_tp_freedom_thread_yield
    simp only [hvd, schedule_point_looks_valid, not_true_eq_false, if_false]
    rw [hidx d (Or.inr hd)]
  · unfold scheduler_tp_freedom_thread_yield
    simp only [hvd, schedule_point_looks_valid, not_true_eq_false, if_false]
    rw [hidx (-1) (Or.inl rfl)]

/-- A queue of three items with a bound of five, and seven events with a window of nine. -/
theorem C20_large_bound_is_unbounded_witness :
    scheduler_tp_freedom_thread_yield (scenario_env ⟨10, 0⟩ 2)
        (with_tp_degrees_of_freedom scenario_state 5)
        SCHEDULE_POINT_TP_GETTING_WORK (.getting_work ⟨some [4, 5, 6], 0⟩)
      = some (with_tp_degrees_of_freedom scenario_state 5,
          .getting_work ⟨some [4, 5, 6],
            (scenario_env ⟨10, 0⟩ 2).rand_int 0 ([4, 5, 6] : List Nat).length⟩)
    ∧ scheduler_tp_freedom__shuffle_events (scenario_env ⟨10, 0⟩ 2).random_shuffle 9
        seven_events 7
      = some ((scenario_env ⟨10, 0⟩ 2).random_shuffle 0 (seven_events.take (7 : Int).toNat)
          ++ seven_events.drop (7 : Int).toNat) :=
  have h := C20_large_bound_is_unbounded (scenario_env ⟨10, 0⟩ 2) scenario_state [4, 5, 6]
    0 5 seven_events 7 9 (by decide) (by decide) (by decide) (by decide) (by decide)
  ⟨h.1, h.2.2.2.2.1⟩

end TPFreedom
